import Mathlib

/-!
Shallow embedding of the classification pipeline of `src/classifier.py`
(insta-monitor): the retry/backoff model invoker, the JSON response
extractor, the result normalizer and the `classify_content` orchestrator,
together with proofs of the specified invariants.

External collaborators (the OpenAI SDK, `json.loads`, SHA-256 hashing) are
modelled as explicit parameters (an attempt oracle, a JSON parse function, a
hash function).  Python numbers are modelled as exact rationals, Python
`round(x, n)` as round-half-to-even on rationals, and a raised exception as
an `Option`/dedicated constructor.
-/

namespace Insta

/-! ### Substring search (models Python's `in` on strings) -/

/-- `leadsWith pat cs`: `pat` occurs at the very start of `cs`. -/
def leadsWith : List Char → List Char → Bool
  | [], _ => true
  | _ :: _, [] => false
  | a :: as, b :: bs => a == b && leadsWith as bs

/-- `hasSeq pat cs`: `pat` occurs contiguously somewhere in `cs`. -/
def hasSeq (pat : List Char) : List Char → Bool
  | [] => leadsWith pat []
  | c :: rest => leadsWith pat (c :: rest) || hasSeq pat rest

/-- Model of Python's substring test `pat in s`. -/
def strHas (s pat : String) : Bool := hasSeq pat.toList s.toList

/-! ### Trimming (models Python `str.strip()`) -/

/-- Remove leading and trailing whitespace characters. -/
def trimList (cs : List Char) : List Char :=
  ((cs.dropWhile Char.isWhitespace).reverse.dropWhile Char.isWhitespace).reverse

/-- Model of Python `s.strip()`. -/
def pyStrip (s : String) : String := String.mk (trimList s.toList)

/-- `endsList pat cs`: `pat` occurs at the very end of `cs`. -/
def endsList (pat cs : List Char) : Bool := leadsWith pat.reverse cs.reverse

/-! ### Python `round` (banker's rounding) on exact rationals -/

/-- The floor of a rational, computably (equals `⌊q⌋`, see `ratFloor_eq`). -/
def ratFloor (q : ℚ) : ℤ := q.num / q.den

lemma ratFloor_eq (q : ℚ) : ratFloor q = ⌊q⌋ := (Rat.floor_def).symm

/-- Round a rational to the nearest integer, ties to even (Python `round`). -/
def rhe (q : ℚ) : ℤ :=
  if q - ratFloor q < 1/2 then ratFloor q
  else if q - ratFloor q = 1/2 then (if ratFloor q % 2 = 0 then ratFloor q else ratFloor q + 1)
  else ratFloor q + 1

/-- Model of Python `round(q, n)`. -/
def pyRound (n : ℕ) (q : ℚ) : ℚ := (rhe (q * 10 ^ n) : ℚ) / 10 ^ n

/-! ### JSON values (the output domain of `json.loads`) -/

/-- A parsed JSON value. -/
inductive JValue where
  | jnull
  | jbool (b : Bool)
  | jnum (q : ℚ)
  | jstr (s : String)
  | jarr (xs : List JValue)
  | jobj (fields : List (String × JValue))

/-- Python truthiness of a parsed-JSON value. -/
def truthy : JValue → Bool
  | .jnull => false
  | .jbool b => b
  | .jnum q => decide (q ≠ 0)
  | .jstr s => decide (s ≠ "")
  | .jarr xs => !xs.isEmpty
  | .jobj fs => !fs.isEmpty

/-- Numeric value of a digit list (most significant first). -/
def digitsVal (l : List Char) : ℕ := l.foldl (fun n c => n * 10 + (c.toNat - 48)) 0

/-- Model of Python `float(str)` restricted to plain decimal literals
(optional surrounding whitespace, optional sign, digits with an optional
fractional part).  Exponents, `inf`/`nan` and underscores are treated as
conversion failures; no verified property depends on those forms. -/
def parseFloatStr (s : String) : Option ℚ :=
  let cs := trimList s.toList
  let signed : ℚ × List Char :=
    match cs with
    | '+' :: rest => (1, rest)
    | '-' :: rest => (-1, rest)
    | _ => (1, cs)
  let ip := signed.2.takeWhile Char.isDigit
  let rest := signed.2.dropWhile Char.isDigit
  match rest with
  | [] => if ip.isEmpty then none else some (signed.1 * digitsVal ip)
  | '.' :: fp =>
    if fp.all Char.isDigit && !(ip.isEmpty && fp.isEmpty) then
      some (signed.1 * ((digitsVal ip : ℚ) + (digitsVal fp : ℚ) / 10 ^ fp.length))
    else none
  | _ => none

/-- Model of Python `float(v)` on a parsed-JSON value (`none` models the
`TypeError`/`ValueError` the conversion raises). -/
def pyFloat : JValue → Option ℚ
  | .jbool b => some (if b then 1 else 0)
  | .jnum q => some q
  | .jstr s => parseFloatStr s
  | _ => none

/-- Coarse model of Python `str(v)` on a parsed-JSON value; used only to cap
`key_quotes` entries, and no verified property inspects the rendered text. -/
def pyStr : JValue → String
  | .jnull => "None"
  | .jbool b => if b then "True" else "False"
  | .jnum q => toString q
  | .jstr s => s
  | .jarr _ => "[...]"
  | .jobj _ => "\x7b...\x7d"

/-- Model of Python iteration over a parsed-JSON value (`none` models the
`TypeError` on non-iterables): lists yield their elements, strings their
1-character substrings, objects their keys. -/
def pyIterVals : JValue → Option (List JValue)
  | .jarr xs => some xs
  | .jstr s => some (s.toList.map fun c => .jstr (String.mk [c]))
  | .jobj fs => some (fs.map fun kv => .jstr kv.1)
  | _ => none

/-! ### Python dicts of JSON values, as lookup functions -/

/-- A Python dict with string keys and JSON values. -/
abbrev Dict := String → Option JValue

/-- Python item assignment `d[k] = v`. -/
def dset (d : Dict) (k : String) (v : JValue) : Dict :=
  fun x => if x = k then some v else d x

/-- Model of the idiom `d.get(k) or dflt`: the stored value if present and
truthy, otherwise the default. -/
def getOrDefault (d : Dict) (k : String) (dflt : JValue) : JValue :=
  match d k with
  | some v => if truthy v then v else dflt
  | none => dflt

/-! ### Configuration constants (`classifier.py`, lines 20-27) -/

def CLASSIFIER_VERSION : String := "v1.3"

def MAX_TRANSCRIPT_CHARS : ℕ := 15000

def MAX_RETRIES : ℕ := 3

def BACKOFF_SECONDS : List ℚ := [1/2, 1, 2]

/-! ### Validation constants (`classifier.py`, lines 87-137) -/

def VALID_TOPICS : List String :=
  ["Economia/Fiscal", "Segurança Pública", "Reforma Urbana/Habitação",
   "Política Institucional", "Geração Z/Juventude", "Liberalismo/Valores",
   "Justiça/Judiciário", "Corrupção/Escândalos", "Mídia/Narrativa",
   "Política Local", "Direitos Sociais/Minorias", "Outros/Não Político"]

def VALID_CONTENT_TYPES : List String :=
  ["ATAQUE", "COLLAB", "PROPOSTA", "INFORMATIVO", "NEUTRO"]

def VALID_ACTIONS : List String :=
  ["RESPONDER URGENTE", "MONITORAR", "AMPLIFICAR", "PARCERIA", "ANALISAR",
   "ARQUIVAR"]

/-- `REQUIRED_KEYS` (lines 116-137): the canonical schema with its default
values (Python `None` is `jnull`, the list defaults are empty lists). -/
def REQUIRED_KEYS : List (String × JValue) :=
  [("username", .jnull),
   ("url", .jnull),
   ("primary_topic", .jstr "Outros/Não Político"),
   ("secondary_topics", .jarr []),
   ("content_type", .jstr "NEUTRO"),
   ("severity_score", .jnull),
   ("amplification_score", .jnull),
   ("confidence_score", .jnum (1/2)),
   ("target", .jnull),
   ("attack_angle", .jnull),
   ("alignment", .jnull),
   ("proposal_summary", .jnull),
   ("alignment_status", .jnull),
   ("info_summary", .jnull),
   ("key_quotes", .jarr []),
   ("action_recommendation", .jstr "ARQUIVAR"),
   ("reasoning", .jstr ""),
   ("analyzed_at", .jnull),
   ("classifier_version", .jstr CLASSIFIER_VERSION),
   ("latency_seconds", .jnull)]

/-! ### `_ensure_keys` (lines 424-437) -/

/-- One step of `_ensure_keys`: fill `kv` in if its key is absent (a list
default is written as a fresh empty list, which equals the stored default). -/
def ensureStep (acc : Dict) (kv : String × JValue) : Dict :=
  if (acc kv.1).isSome then acc else dset acc kv.1 kv.2

/-- The `_ensure_keys` fill loop over an explicit defaults list. -/
def ensureList (l : List (String × JValue)) (d : Dict) : Dict := l.foldl ensureStep d

/-- `_ensure_keys(result)`: every canonical key absent from the result is
filled with its default from `REQUIRED_KEYS`. -/
def ensure_keys (d : Dict) : Dict := ensureList REQUIRED_KEYS d

/-! ### `_extract_json` (lines 266-306) -/

/-- Lines 275-276: strip an optional leading markdown code fence (optionally
tagged `json`) and an optional trailing fence, then trim. -/
def stripFences (raw : String) : String :=
  let s := trimList raw.toList
  let s1 :=
    if leadsWith "```".toList s then
      let t := s.drop 3
      let t2 := if leadsWith "json".toList t then t.drop 4 else t
      t2.dropWhile Char.isWhitespace
    else s
  let s2 := if endsList "```".toList s1 then (s1.reverse.drop 3).reverse else s1
  String.mk (trimList s2)

/-- `cleaned.find("{")` (line 285): the suffix starting at the first open
brace, if any. -/
def dropToBrace : List Char → Option (List Char)
  | [] => none
  | c :: rest => if c = '\x7b' then some (c :: rest) else dropToBrace rest

/-- Lines 286-297: the strategy-2 scan.  `depth` is Python's running brace
counter; on its first return to zero the accumulated span is parsed, and a
parse failure models the `break` (the strategy is abandoned, no other brace
pair is tried). -/
def braceScan (parse : String → Option Dict) : ℤ → List Char → List Char → Option Dict
  | _, _, [] => none
  | depth, acc, c :: rest =>
    if c = '\x7b' then braceScan parse (depth + 1) (acc ++ [c]) rest
    else if c = '\x7d' then
      (if depth - 1 = 0 then parse (String.mk (acc ++ [c]))
       else braceScan parse (depth - 1) (acc ++ [c]) rest)
    else braceScan parse depth (acc ++ [c]) rest

/-- Split at the first close brace: `(before, after)`, the brace dropped. -/
def splitAtClose : List Char → Option (List Char × List Char)
  | [] => none
  | c :: rest =>
    if c = '\x7d' then some ([], rest)
    else
      match splitAtClose rest with
      | none => none
      | some (b, a) => some (c :: b, a)

lemma splitAtClose_length_lt : ∀ {cs b a : List Char},
    splitAtClose cs = some (b, a) → a.length < cs.length := by
  intro cs
  induction cs with
  | nil => intro b a h; simp [splitAtClose] at h
  | cons c rest ih =>
    intro b a h
    simp only [splitAtClose] at h
    split at h
    · simp only [Option.some.injEq, Prod.mk.injEq] at h
      have h2 : (c :: rest).length = rest.length + 1 := rfl
      rw [← h.2]
      omega
    · split at h
      · exact absurd h (by simp)
      · rename_i b' a' hsp
        simp only [Option.some.injEq, Prod.mk.injEq] at h
        have h1 := ih hsp
        have h2 : (c :: rest).length = rest.length + 1 := rfl
        rw [← h.2]
        omega

/-- Model of `re.finditer(r"\{(?:.|\n)*?\}", cleaned)` (line 300): the
non-overlapping lazy brace spans, in order of appearance — each span runs
from an open brace to the first close brace after it, and scanning resumes
after the span. -/
def lazySpans : List Char → List (List Char)
  | [] => []
  | c :: rest =>
    if c = '\x7b' then
      match h : splitAtClose rest with
      | none => []
      | some (b, a) => ('\x7b' :: (b ++ ['\x7d'])) :: lazySpans a
    else lazySpans rest
termination_by cs => cs.length
decreasing_by
  · simp only [List.length_cons]
    exact Nat.lt_succ_of_lt (splitAtClose_length_lt h)
  · simp only [List.length_cons]
    exact Nat.lt_succ_self _

/-- `_extract_json` (lines 266-306), parameterized by the JSON parser
(`json.loads` is an external collaborator): direct parse of the de-fenced
text, then the balanced-brace scan, then the lazy regex spans. -/
def extract_json (parse : String → Option Dict) (raw : String) : Option Dict :=
  let cleaned := stripFences raw
  match parse cleaned with
  | some obj => some obj
  | none =>
    match
      (match dropToBrace cleaned.toList with
       | none => none
       | some suffix => braceScan parse 0 [] suffix) with
    | some obj => some obj
    | none => (lazySpans cleaned.toList).findSome? fun span => parse (String.mk span)

/-! ### The extractor as the spec words it (for claim C8) -/

/-- Spec reading of strategy 2: the prefix of the suffix at the first open
brace whose nesting depth first returns to zero. -/
def matchingSpan : ℕ → List Char → List Char → Option (List Char)
  | _, _, [] => none
  | depth, acc, c :: rest =>
    if c = '\x7b' then matchingSpan (depth + 1) (acc ++ [c]) rest
    else if c = '\x7d' then
      (if depth = 1 then some (acc ++ [c])
       else matchingSpan (depth - 1) (acc ++ [c]) rest)
    else matchingSpan depth (acc ++ [c]) rest

/-- The single balanced span considered by strategy 2. -/
def firstBalancedSpan (cs : List Char) : Option (List Char) :=
  (dropToBrace cs).bind (matchingSpan 0 [])

/-- Spec strategy 2: parse exactly the first balanced span, nothing else. -/
def specStrat2 (parse : String → Option Dict) (cleaned : String) : Option Dict :=
  match firstBalancedSpan cleaned.toList with
  | none => none
  | some span => parse (String.mk span)

/-- Spec strategy 3: try every non-overlapping permissive brace span in order
of appearance, returning the first that parses. -/
def specStrat3 (parse : String → Option Dict) (cleaned : String) : Option Dict :=
  (lazySpans cleaned.toList).findSome? fun span => parse (String.mk span)

/-- The extractor as the spec states it: three strategies in order, stopping
at the first success, absent when all fail. -/
def specExtract (parse : String → Option Dict) (raw : String) : Option Dict :=
  [parse (stripFences raw), specStrat2 parse (stripFences raw),
   specStrat3 parse (stripFences raw)].findSome? id

/-! ### Api stats and the model invoker `_call_openai` (lines 55-80, 329-421) -/

/-- `ApiCallStats`: the process-lifetime counters (lines 55-57). -/
structure ApiStats where
  total_calls : ℕ
  total_latency : ℚ
deriving DecidableEq

/-- `_record_api_call` (lines 75-80). -/
def record_api_call (s : ApiStats) (latency : ℚ) : ApiStats :=
  ⟨s.total_calls + 1, s.total_latency + latency⟩

/-- What one attempt of `client.chat.completions.create` does, as reported by
the environment: a response text with its wall-clock elapsed time and token
usage (0 when unavailable), or an exception with its type name, message and
elapsed time. -/
inductive AttemptOutcome where
  | success (text : String) (elapsed : ℚ) (tokens : ℕ)
  | failure (etype emsg : String) (elapsed : ℚ)

/-- Observable side effects of the invoker: an API attempt (with the flag
saying whether `response_format` was kept in the kwargs) or a backoff sleep. -/
inductive Ev where
  | attemptEv (useJson : Bool)
  | sleepEv (d : ℚ)
deriving DecidableEq

/-- Does this event record an API attempt? -/
def isAttempt : Ev → Bool
  | .attemptEv _ => true
  | _ => false

/-- Return value of `_call_openai` plus its side effects. -/
structure InvokeOut where
  text : Option String
  latency : ℚ
  tokens : ℕ
  stats : ApiStats
  trace : List Ev

/-- Line 384: `"AuthenticationError" in error_type or "401" in error_msg`. -/
def isAuthErr (etype emsg : String) : Bool :=
  strHas etype "AuthenticationError" || strHas emsg "401"

/-- Line 385: `"BadRequestError" in error_type or "400" in error_msg`. -/
def isBadReqErr (etype emsg : String) : Bool :=
  strHas etype "BadRequestError" || strHas emsg "400"

/-- Line 383: `"RateLimitError" in error_type or "429" in error_msg`.  It
only selects a log tag in the source, so it does not steer the model. -/
def isRateLimitErr (etype emsg : String) : Bool :=
  strHas etype "RateLimitError" || strHas emsg "429"

/-- The `for attempt in range(MAX_RETRIES)` loop of `_call_openai`
(lines 348-421).  `fuel` is the number of loop iterations left
(`MAX_RETRIES - attempt`); running out of fuel is the fall-through return
`(None, round(total_latency, 2), 0)` of line 421.  The oracle stands for the
OpenAI SDK: the outcome may depend on the attempt number and on whether
`response_format` is still requested. -/
def call_openai_loop (oracle : ℕ → Bool → AttemptOutcome) :
    ℕ → ℕ → Bool → ℚ → ApiStats → List Ev → InvokeOut
  | 0, _, _, totalLat, stats, trace => ⟨none, pyRound 2 totalLat, 0, stats, trace⟩
  | fuel + 1, attempt, useJson, totalLat, stats, trace =>
    match oracle attempt useJson with
    | .success text elapsed tokens =>
      let latency := pyRound 2 elapsed
      ⟨some (pyStrip text), latency, tokens, record_api_call stats latency,
        trace ++ [.attemptEv useJson]⟩
    | .failure etype emsg elapsed =>
      let totalLat' := totalLat + elapsed
      if isAuthErr etype emsg then
        ⟨none, pyRound 2 totalLat', 0, stats, trace ++ [.attemptEv useJson]⟩
      else if isBadReqErr etype emsg && strHas emsg "response_format" then
        call_openai_loop oracle fuel (attempt + 1) false totalLat' stats
          (trace ++ [.attemptEv useJson])
      else if attempt < MAX_RETRIES - 1 then
        call_openai_loop oracle fuel (attempt + 1) useJson totalLat' stats
          (trace ++ [.attemptEv useJson, .sleepEv (BACKOFF_SECONDS.getD attempt 0)])
      else ⟨none, pyRound 2 totalLat', 0, stats, trace ++ [.attemptEv useJson]⟩

/-- `_call_openai(api_key, user_message)` (lines 329-421): up to
`MAX_RETRIES` attempts, starting with `response_format` requested. -/
def call_openai (oracle : ℕ → Bool → AttemptOutcome) (stats : ApiStats) : InvokeOut :=
  call_openai_loop oracle MAX_RETRIES 0 true 0 stats []

/-! ### The normalization steps of `classify_content` (lines 519-580) -/

/-- Lines 519-524: stamp caller metadata onto the extracted object. -/
def setMeta (username url nowIso : String) (latency : ℚ) (d : Dict) : Dict :=
  dset (dset (dset (dset (dset d "username" (.jstr username)) "url" (.jstr url))
    "analyzed_at" (.jstr nowIso)) "classifier_version" (.jstr CLASSIFIER_VERSION))
    "latency_seconds" (.jnum latency)

/-- Shared shape of the three enumeration validations (lines 527-528,
536-537, 539-540): `if result.get(key) not in valid: result[key] = dflt`.
A stored non-string value is never in the list of strings. -/
def fixEnum (key : String) (valid : List String) (dflt : String) (d : Dict) : Dict :=
  match d key with
  | some (.jstr t) => if t ∈ valid then d else dset d key (.jstr dflt)
  | _ => dset d key (.jstr dflt)

/-- Lines 527-528: force `primary_topic` into the closed taxonomy. -/
def fixPrimaryTopic (d : Dict) : Dict :=
  fixEnum "primary_topic" VALID_TOPICS "Outros/Não Político" d

/-- Is this parsed-JSON value one of the valid topic strings (`t in
VALID_TOPICS` with `t` a JSON value)? -/
def isValidTopic : JValue → Bool
  | .jstr s => decide (s ∈ VALID_TOPICS)
  | _ => false

/-- Lines 530-533: keep only taxonomy members among `secondary_topics`, at
most 2, preserving order.  `none` models the `TypeError` Python raises when
the stored value is truthy but not iterable. -/
def fixSecondaryTopics (d : Dict) : Option Dict :=
  match pyIterVals (getOrDefault d "secondary_topics" (.jarr [])) with
  | none => none
  | some xs => some (dset d "secondary_topics" (.jarr ((xs.filter isValidTopic).take 2)))

/-- Lines 536-537: force `content_type` into the closed 5-value set. -/
def fixContentType (d : Dict) : Dict :=
  fixEnum "content_type" VALID_CONTENT_TYPES "NEUTRO" d

/-- Lines 539-540: force `action_recommendation` into the closed 6-value set. -/
def fixAction (d : Dict) : Dict :=
  fixEnum "action_recommendation" VALID_ACTIONS "ARQUIVAR" d

/-- Lines 546-552 and 556-561: numeric coercion of a 0-10 score:
`round(max(0.0, min(10.0, float(v))), 1)`, `0.0` when the conversion raises. -/
def coerceScore (v : JValue) : ℚ :=
  match pyFloat v with
  | some x => pyRound 1 (max 0 (min 10 x))
  | none => 0

/-- Lines 567-573: numeric coercion of `confidence_score`:
`round(max(0.0, min(1.0, float(v))), 2)`, `0.5` when the conversion raises. -/
def coerceConf (v : JValue) : ℚ :=
  match pyFloat v with
  | some x => pyRound 2 (max 0 (min 1 x))
  | none => 1/2

/-- Lines 543-565: type-conditional score normalization.  After
`fixContentType` the `content_type` key always holds a valid string, so the
fallback arm is unreachable in the composed pipeline; it mirrors the `else`
branch (both scores nulled) that any non-`ATAQUE`/`COLLAB` value takes. -/
def coerceTypeScores (d : Dict) : Dict :=
  match d "content_type" with
  | some (.jstr ct) =>
    if ct = "ATAQUE" then
      dset (dset d "severity_score"
        (.jnum (coerceScore (getOrDefault d "severity_score" (.jnum 0)))))
        "amplification_score" .jnull
    else if ct = "COLLAB" then
      dset (dset d "amplification_score"
        (.jnum (coerceScore (getOrDefault d "amplification_score" (.jnum 0)))))
        "severity_score" .jnull
    else dset (dset d "severity_score" .jnull) "amplification_score" .jnull
  | _ => dset (dset d "severity_score" .jnull) "amplification_score" .jnull

/-- Lines 567-573: replace `confidence_score` by its coerced value. -/
def coerceConfidence (d : Dict) : Dict :=
  dset d "confidence_score"
    (.jnum (coerceConf (getOrDefault d "confidence_score" (.jnum (1/2)))))

/-- Lines 576-577: sanitize `key_quotes` (stringify, trim, cap each at 200
characters, keep at most 3).  `none` models the `TypeError` on a truthy
non-iterable value. -/
def fixQuotes (d : Dict) : Option Dict :=
  match pyIterVals (getOrDefault d "key_quotes" (.jarr [])) with
  | none => none
  | some qs => some (dset d "key_quotes"
      (.jarr ((qs.map fun q =>
        .jstr (String.mk ((trimList (pyStr q).toList).take 200))).take 3)))

/-- Lines 519-580 of `classify_content`: metadata stamping, enumeration
validation, score coercion, quote sanitation and key completion of the
extracted object, in source order (`none` models an uncaught `TypeError`). -/
def normalizeResult (username url nowIso : String) (latency : ℚ) (result : Dict) :
    Option Dict :=
  match fixSecondaryTopics (fixPrimaryTopic (setMeta username url nowIso latency result)) with
  | none => none
  | some d2 =>
    match fixQuotes (coerceConfidence (coerceTypeScores (fixAction (fixContentType d2)))) with
    | none => none
    | some d4 => some (ensure_keys d4)

/-! ### The orchestrator `classify_content` (lines 445-592) -/

/-- Lines 480-487: the cache-hit path re-stamps the cached entry with the
caller's `username`/`url` and keeps/sets `analyzed_at`. -/
def restampCached (entry : Dict) (username url nowIso : String) : Dict :=
  let cached := dset (dset entry "username" (.jstr username)) "url" (.jstr url)
  match cached "analyzed_at" with
  | some v => dset cached "analyzed_at" v
  | none => dset cached "analyzed_at" (.jstr nowIso)

/-- Line 583: the cache entry is the record minus the caller-contextual
`username`/`url` fields. -/
def stripCtx (rec : Dict) : Dict :=
  fun k => if k = "username" ∨ k = "url" then none else rec k

/-- Outcome of one `classify_content` call. -/
inductive CResult where
  | raised
  | absent
  | record (d : Dict)

/-- Return value of `classify_content` plus its observable effects: the
resulting cache mapping, whether a cache write happened, the api stats and
the invoker's event trace. -/
structure ClassifyOut where
  result : CResult
  cache : String → Option Dict
  wrote : Bool
  stats : ApiStats
  trace : List Ev

/-- Lines 507-592: the fresh-classification path after the cache miss —
invoke, extract, normalize, cache write. -/
def classifyFresh (parse : String → Option Dict) (inv : InvokeOut)
    (cache : String → Option Dict) (t_hash username url nowIso : String) :
    ClassifyOut :=
  match inv.text with
  | none => ⟨.absent, cache, false, inv.stats, inv.trace⟩
  | some raw =>
    match extract_json parse raw with
    | none => ⟨.absent, cache, false, inv.stats, inv.trace⟩
    | some result0 =>
      match normalizeResult username url nowIso inv.latency result0 with
      | none => ⟨.raised, cache, false, inv.stats, inv.trace⟩
      | some rec =>
        ⟨.record rec,
         fun h => if h = t_hash then some (stripCtx rec) else cache h,
         true, inv.stats, inv.trace⟩

/-- `classify_content(username, transcript, url)` (lines 445-592).
`hashFn` models `_hash_transcript` (SHA-256, an external primitive), `parse`
models `json.loads`, `oracle` models the OpenAI SDK given the outbound user
message, `apiKey` models `os.getenv("OPENAI_API_KEY")`, `cache` the mapping
loaded from disk, `nowIso` the current UTC timestamp. -/
def classify_content
    (hashFn : String → String) (parse : String → Option Dict)
    (oracle : String → ℕ → Bool → AttemptOutcome)
    (apiKey : Option String) (cache : String → Option Dict)
    (stats : ApiStats) (nowIso : String)
    (username transcript url : String) : ClassifyOut :=
  if apiKey.getD "" = "" then ⟨.absent, cache, false, stats, []⟩
  else if pyStrip transcript = "" then ⟨.absent, cache, false, stats, []⟩
  else
    let transcript_clean := pyStrip transcript
    let t_hash := hashFn transcript_clean
    match cache t_hash with
    | some entry =>
      ⟨.record (ensure_keys (restampCached entry username url nowIso)),
       cache, false, stats, []⟩
    | none =>
      let truncated := transcript_clean.toList.length > MAX_TRANSCRIPT_CHARS
      let body :=
        if truncated then String.mk (transcript_clean.toList.take MAX_TRANSCRIPT_CHARS)
        else transcript_clean
      let user_message :=
        "Perfil: @" ++ username ++ "\nURL: " ++ url ++ "\nTranscricao:\n" ++ body
          ++ (if truncated then "\n[[TRUNCATED]]" else "")
      classifyFresh parse (call_openai (oracle user_message) stats) cache
        t_hash username url nowIso

/-! ### Derived predicates used to state the claims -/

/-- The default that `_ensure_keys` would write for key `k` (first match in
the defaults list). -/
def firstVal (l : List (String × JValue)) (k : String) : Option JValue :=
  l.findSome? fun kv => if kv.1 = k then some kv.2 else none

/-- Every canonical key is present in the record. -/
def keysComplete (rec : Dict) : Prop :=
  ∀ k ∈ REQUIRED_KEYS.map Prod.fst, (rec k).isSome

/-- `primary_topic` holds a member of the closed taxonomy. -/
def topicOk (rec : Dict) : Prop :=
  ∃ t, rec "primary_topic" = some (.jstr t) ∧ t ∈ VALID_TOPICS

/-- `content_type` holds a member of the closed 5-value set. -/
def ctypeOk (rec : Dict) : Prop :=
  ∃ ct, rec "content_type" = some (.jstr ct) ∧ ct ∈ VALID_CONTENT_TYPES

/-- `action_recommendation` holds a member of the closed 6-value set. -/
def actionOk (rec : Dict) : Prop :=
  ∃ a, rec "action_recommendation" = some (.jstr a) ∧ a ∈ VALID_ACTIONS

/-- The mutual-exclusivity shape: exactly the score matching `content_type`
is a number, the other (or both) is the JSON null. -/
def scoresOk (rec : Dict) : Prop :=
  ∃ ct, rec "content_type" = some (.jstr ct) ∧
    ((ct = "ATAQUE" ∧ (∃ q, rec "severity_score" = some (.jnum q))
        ∧ rec "amplification_score" = some .jnull)
     ∨ (ct = "COLLAB" ∧ (∃ q, rec "amplification_score" = some (.jnum q))
        ∧ rec "severity_score" = some .jnull)
     ∨ (ct ≠ "ATAQUE" ∧ ct ≠ "COLLAB" ∧ rec "severity_score" = some .jnull
        ∧ rec "amplification_score" = some .jnull))

/-- A cache entry whose enumerated fields, when present, are valid (what the
pipeline itself always writes). -/
def cacheEntryOk (d : Dict) : Prop :=
  (∀ v, d "primary_topic" = some v → ∃ t, v = .jstr t ∧ t ∈ VALID_TOPICS)
  ∧ (∀ v, d "content_type" = some v → ∃ ct, v = .jstr ct ∧ ct ∈ VALID_CONTENT_TYPES)
  ∧ (∀ v, d "action_recommendation" = some v → ∃ a, v = .jstr a ∧ a ∈ VALID_ACTIONS)

/-- All entries of the cache have valid enumerated fields. -/
def cacheOk (cache : String → Option Dict) : Prop :=
  ∀ h d, cache h = some d → cacheEntryOk d

/-- All entries of the cache satisfy the mutual-exclusivity shape. -/
def cacheScoresOk (cache : String → Option Dict) : Prop :=
  ∀ h d, cache h = some d → scoresOk d

/-- A failure that takes the generic retry path: neither an authentication
error nor a bad request mentioning `response_format`. -/
def genericFail (etype emsg : String) : Prop :=
  isAuthErr etype emsg = false
  ∧ (isBadReqErr etype emsg && strHas emsg "response_format") = false

/-! ### Arithmetic facts about `rhe` and `pyRound` -/

lemma rhe_nonneg {q : ℚ} (h : 0 ≤ q) : 0 ≤ rhe q := by
  have hf : (0:ℤ) ≤ ⌊q⌋ := Int.floor_nonneg.mpr h
  simp only [rhe, ratFloor_eq]
  split_ifs <;> omega

lemma rhe_le_intCast {q : ℚ} {c : ℤ} (h : q ≤ (c:ℚ)) : rhe q ≤ c := by
  have hf : ⌊q⌋ ≤ c := by
    have h1 := Int.floor_mono h
    rwa [Int.floor_intCast] at h1
  have hfl : (⌊q⌋ : ℚ) ≤ q := Int.floor_le q
  simp only [rhe, ratFloor_eq]
  split_ifs with h1 h2 h3
  · exact hf
  · exact hf
  · have hq : (⌊q⌋ : ℚ) < q := by linarith
    have : ⌊q⌋ < c := by exact_mod_cast lt_of_lt_of_le hq h
    omega
  · have hge : (1:ℚ)/2 ≤ q - ⌊q⌋ := not_lt.mp h1
    have hq : (⌊q⌋ : ℚ) < q := by linarith
    have : ⌊q⌋ < c := by exact_mod_cast lt_of_lt_of_le hq h
    omega

lemma rhe_intCast (z : ℤ) : rhe (z : ℚ) = z := by
  simp only [rhe, ratFloor_eq, Int.floor_intCast, sub_self]
  norm_num

lemma rhe_one_le {q : ℚ} (h : 1/2 < q) : 1 ≤ rhe q := by
  have hf0 : (0:ℤ) ≤ ⌊q⌋ := Int.floor_nonneg.mpr (by linarith)
  simp only [rhe, ratFloor_eq]
  split_ifs with h1 h2 h3
  · have hq : (0:ℚ) < ⌊q⌋ := by linarith
    have : (0:ℤ) < ⌊q⌋ := by exact_mod_cast hq
    omega
  · have hq : (0:ℚ) < ⌊q⌋ := by linarith
    have : (0:ℤ) < ⌊q⌋ := by exact_mod_cast hq
    omega
  · omega
  · omega

lemma rhe_zero_of_le_half {q : ℚ} (h0 : 0 ≤ q) (hh : q ≤ 1/2) : rhe q = 0 := by
  have hf : ⌊q⌋ = 0 := by
    rw [Int.floor_eq_zero_iff, Set.mem_Ico]
    exact ⟨h0, by linarith⟩
  simp only [rhe, ratFloor_eq, hf, Int.cast_zero, sub_zero]
  split_ifs with h1 h2 h3
  · rfl
  · rfl
  · omega
  · exfalso
    have := not_lt.mp h1
    rcases lt_or_eq_of_le this with hlt | heq
    · linarith
    · exact h2 heq.symm

lemma pyRound_nonneg (n : ℕ) {q : ℚ} (h : 0 ≤ q) : 0 ≤ pyRound n q := by
  unfold pyRound
  apply div_nonneg _ (by positivity)
  have : (0:ℤ) ≤ rhe (q * 10 ^ n) := rhe_nonneg (by positivity)
  exact_mod_cast this

lemma pyRound_le_intCast (n : ℕ) {q : ℚ} {c : ℤ} (h : q ≤ (c:ℚ)) :
    pyRound n q ≤ (c:ℚ) := by
  unfold pyRound
  rw [div_le_iff₀ (by positivity : (0:ℚ) < 10 ^ n)]
  have h1 : q * 10 ^ n ≤ ((c * 10 ^ n : ℤ) : ℚ) := by
    push_cast
    exact mul_le_mul_of_nonneg_right h (by positivity)
  have h2 := rhe_le_intCast h1
  calc (rhe (q * 10 ^ n) : ℚ) ≤ ((c * 10 ^ n : ℤ) : ℚ) := by exact_mod_cast h2
    _ = (c:ℚ) * 10 ^ n := by push_cast; ring

lemma pyRound_den (n : ℕ) (q : ℚ) : ∃ z : ℤ, pyRound n q = (z : ℚ) / 10 ^ n :=
  ⟨rhe (q * 10 ^ n), rfl⟩

lemma pyRound_zero (n : ℕ) : pyRound n 0 = 0 := by
  unfold pyRound
  rw [zero_mul, show ((0:ℚ)) = ((0:ℤ):ℚ) by norm_num, rhe_intCast]
  norm_num

lemma pyRound_two_eq_zero_iff {q : ℚ} (h : 0 ≤ q) :
    pyRound 2 q = 0 ↔ q ≤ 1/200 := by
  unfold pyRound
  rw [div_eq_zero_iff]
  constructor
  · rintro (hz | hz)
    · by_contra hq
      push_neg at hq
      have : (1:ℚ)/2 < q * 10 ^ 2 := by nlinarith
      have h1 := rhe_one_le this
      have : (rhe (q * 10 ^ 2) : ℚ) = 0 := hz
      have : rhe (q * 10 ^ 2) = 0 := by exact_mod_cast this
      omega
    · norm_num at hz
  · intro hq
    left
    have h1 : rhe (q * 10 ^ 2) = 0 :=
      rhe_zero_of_le_half (by positivity) (by nlinarith)
    rw [h1]
    norm_num

/-! ### Facts about score and confidence coercion -/

lemma coerceScore_mem (v : JValue) :
    0 ≤ coerceScore v ∧ coerceScore v ≤ 10 ∧ ∃ z : ℤ, coerceScore v = (z:ℚ) / 10 := by
  unfold coerceScore
  cases hv : pyFloat v with
  | none => exact ⟨le_refl 0, by norm_num, 0, by norm_num⟩
  | some x =>
    refine ⟨pyRound_nonneg 1 (le_max_left 0 _), ?_, ?_⟩
    · have h1 : max 0 (min 10 x) ≤ ((10:ℤ):ℚ) := by
        push_cast
        exact max_le (by norm_num) (min_le_left _ _)
      have h2 := pyRound_le_intCast 1 h1
      simpa using h2
    · have h3 := pyRound_den 1 (max 0 (min 10 x))
      simpa using h3

lemma coerceScore_fail {v : JValue} (h : pyFloat v = none) : coerceScore v = 0 := by
  unfold coerceScore
  rw [h]

lemma coerceConf_mem (v : JValue) :
    0 ≤ coerceConf v ∧ coerceConf v ≤ 1 ∧ ∃ z : ℤ, coerceConf v = (z:ℚ) / 100 := by
  unfold coerceConf
  cases hv : pyFloat v with
  | none => exact ⟨by norm_num, by norm_num, 50, by norm_num⟩
  | some x =>
    refine ⟨pyRound_nonneg 2 (le_max_left 0 _), ?_, ?_⟩
    · have h1 : max 0 (min 1 x) ≤ ((1:ℤ):ℚ) := by
        push_cast
        exact max_le (by norm_num) (min_le_left _ _)
      have h2 := pyRound_le_intCast 2 h1
      simpa using h2
    · obtain ⟨z, hz⟩ := pyRound_den 2 (max 0 (min 1 x))
      refine ⟨z, ?_⟩
      show pyRound 2 (max 0 (min 1 x)) = (z:ℚ)/100
      rw [hz]
      norm_num

lemma coerceConf_fail {v : JValue} (h : pyFloat v = none) : coerceConf v = 1/2 := by
  unfold coerceConf
  rw [h]

lemma coerceConf_default : coerceConf (.jnum (1/2)) = 1/2 := by
  show pyRound 2 (max 0 (min 1 (1/2))) = 1/2
  rw [min_eq_right (by norm_num : (1:ℚ)/2 ≤ 1),
    max_eq_right (by norm_num : (0:ℚ) ≤ 1/2)]
  unfold pyRound
  rw [show (1:ℚ)/2 * 10^2 = ((50:ℤ):ℚ) by norm_num, rhe_intCast]
  norm_num

lemma coerceScore_zero : coerceScore (.jnum 0) = 0 := by
  show pyRound 1 (max 0 (min 10 0)) = 0
  rw [min_eq_right (by norm_num : (0:ℚ) ≤ 10), max_self]
  exact pyRound_zero 1

lemma coerceConf_eq_zero_iff (v : JValue) :
    coerceConf v = 0 ↔ ∃ x, pyFloat v = some x ∧ x ≤ 1/200 := by
  unfold coerceConf
  cases hv : pyFloat v with
  | none =>
    constructor
    · intro h; norm_num at h
    · rintro ⟨x, hx, -⟩; simp at hx
  | some x =>
    rw [pyRound_two_eq_zero_iff (le_max_left 0 _)]
    constructor
    · intro h
      refine ⟨x, rfl, ?_⟩
      have h1 : min 1 x ≤ 1/200 := le_trans (le_max_right 0 _) h
      rcases le_total 1 x with hx1 | hx1
      · rw [min_eq_left hx1] at h1; linarith
      · rwa [min_eq_right hx1] at h1
    · rintro ⟨x', hx', hle⟩
      injection hx' with hxx
      subst hxx
      exact max_le (by norm_num) (le_trans (min_le_right _ _) hle)

/-! ### Dict lemmas -/

lemma dset_self (d : Dict) (k : String) (v : JValue) : dset d k v k = some v := by
  simp [dset]

lemma dset_ne (d : Dict) {x k : String} (v : JValue) (h : x ≠ k) : dset d k v x = d x := by
  simp [dset, h]

lemma getOrDefault_congr {d d' : Dict} {k : String} (h : d k = d' k) (dflt : JValue) :
    getOrDefault d k dflt = getOrDefault d' k dflt := by
  unfold getOrDefault
  rw [h]

lemma dset2_ne (d : Dict) {x k1 k2 : String} (v1 v2 : JValue)
    (h1 : x ≠ k1) (h2 : x ≠ k2) : dset (dset d k1 v1) k2 v2 x = d x := by
  rw [dset_ne _ _ h2, dset_ne _ _ h1]

/-! ### Facts about `_ensure_keys` -/

lemma ensureList_pres : ∀ (l : List (String × JValue)) (d : Dict) (k : String),
    (d k).isSome → ensureList l d k = d k := by
  intro l
  induction l with
  | nil => intro d k _; rfl
  | cons kv t ih =>
    intro d k hk
    show ensureList t (ensureStep d kv) k = d k
    by_cases h1 : (d kv.1).isSome
    · rw [show ensureStep d kv = d by simp [ensureStep, h1]]
      exact ih d k hk
    · have hs : ensureStep d kv = dset d kv.1 kv.2 := by simp [ensureStep, h1]
      have hne : k ≠ kv.1 := by
        intro he
        rw [he] at hk
        exact h1 hk
      have hval : (dset d kv.1 kv.2) k = d k := dset_ne d kv.2 hne
      rw [hs, ih _ k (by rw [hval]; exact hk), hval]

lemma ensureList_fill : ∀ (l : List (String × JValue)) (d : Dict) (k : String),
    d k = none → ensureList l d k = firstVal l k := by
  intro l
  induction l with
  | nil => intro d k h; exact h
  | cons kv t ih =>
    intro d k h
    show ensureList t (ensureStep d kv) k = firstVal (kv :: t) k
    by_cases hk : kv.1 = k
    · have h1 : ¬ (d kv.1).isSome := by rw [hk, h]; simp
      have hs : ensureStep d kv = dset d kv.1 kv.2 := by simp [ensureStep, h1]
      have hv : (dset d kv.1 kv.2) k = some kv.2 := by
        rw [← hk]
        exact dset_self d kv.1 kv.2
      rw [hs, ensureList_pres t _ k (by rw [hv]; simp), hv]
      unfold firstVal
      rw [List.findSome?_cons, if_pos hk]
    · have hval : (ensureStep d kv) k = d k := by
        unfold ensureStep
        split
        · rfl
        · exact dset_ne d kv.2 (fun he => hk he.symm)
      rw [ih _ k (by rw [hval]; exact h)]
      unfold firstVal
      rw [List.findSome?_cons, if_neg hk]

lemma firstVal_isSome : ∀ (l : List (String × JValue)) (k : String),
    k ∈ l.map Prod.fst → (firstVal l k).isSome := by
  intro l
  induction l with
  | nil => intro k h; simp at h
  | cons kv t ih =>
    intro k h
    unfold firstVal
    rw [List.findSome?_cons]
    by_cases hk : kv.1 = k
    · rw [if_pos hk]; rfl
    · rw [if_neg hk]
      rcases List.mem_cons.mp h with h1 | h1
      · exact absurd h1.symm hk
      · exact ih k h1

lemma ensure_keys_pres (d : Dict) (k : String) (h : (d k).isSome) :
    ensure_keys d k = d k :=
  ensureList_pres REQUIRED_KEYS d k h

lemma ensure_keys_fill (d : Dict) (k : String) (h : d k = none) :
    ensure_keys d k = firstVal REQUIRED_KEYS k :=
  ensureList_fill REQUIRED_KEYS d k h

lemma ensure_keys_complete (d : Dict) : keysComplete (ensure_keys d) := by
  intro k hk
  cases hd : d k with
  | some v =>
    rw [ensure_keys_pres d k (by rw [hd]; simp), hd]
    simp
  | none =>
    rw [ensure_keys_fill d k hd]
    exact firstVal_isSome REQUIRED_KEYS k hk

/-! ### Frame and postcondition lemmas for the normalization steps -/

lemma setMeta_frame (username url nowIso : String) (lat : ℚ) (d : Dict) {k : String}
    (h1 : k ≠ "username") (h2 : k ≠ "url") (h3 : k ≠ "analyzed_at")
    (h4 : k ≠ "classifier_version") (h5 : k ≠ "latency_seconds") :
    setMeta username url nowIso lat d k = d k := by
  unfold setMeta
  rw [dset_ne _ _ h5, dset_ne _ _ h4, dset_ne _ _ h3, dset_ne _ _ h2, dset_ne _ _ h1]

lemma fixEnum_frame (key : String) (valid : List String) (dflt : String) (d : Dict)
    {k : String} (h : k ≠ key) : fixEnum key valid dflt d k = d k := by
  unfold fixEnum
  cases hp : d key with
  | none => exact dset_ne d _ h
  | some v =>
    cases v with
    | jstr t =>
      show (if t ∈ valid then d else dset d key (.jstr dflt)) k = d k
      split_ifs
      · rfl
      · exact dset_ne d _ h
    | jnull => exact dset_ne d _ h
    | jbool b => exact dset_ne d _ h
    | jnum q => exact dset_ne d _ h
    | jarr xs => exact dset_ne d _ h
    | jobj fs => exact dset_ne d _ h

lemma fixEnum_post (key : String) (valid : List String) (dflt : String) (d : Dict)
    (hdef : dflt ∈ valid) :
    ∃ t, fixEnum key valid dflt d key = some (.jstr t) ∧ t ∈ valid := by
  unfold fixEnum
  cases hp : d key with
  | none => exact ⟨dflt, dset_self d _ _, hdef⟩
  | some v =>
    cases v with
    | jstr t =>
      by_cases ht : t ∈ valid
      · refine ⟨t, ?_, ht⟩
        show (if t ∈ valid then d else dset d key (.jstr dflt)) key = some (.jstr t)
        rw [if_pos ht]
        exact hp
      · refine ⟨dflt, ?_, hdef⟩
        show (if t ∈ valid then d else dset d key (.jstr dflt)) key = some (.jstr dflt)
        rw [if_neg ht]
        exact dset_self d _ _
    | jnull => exact ⟨dflt, dset_self d _ _, hdef⟩
    | jbool b => exact ⟨dflt, dset_self d _ _, hdef⟩
    | jnum q => exact ⟨dflt, dset_self d _ _, hdef⟩
    | jarr xs => exact ⟨dflt, dset_self d _ _, hdef⟩
    | jobj fs => exact ⟨dflt, dset_self d _ _, hdef⟩

lemma fixPrimaryTopic_frame (d : Dict) {k : String} (h : k ≠ "primary_topic") :
    fixPrimaryTopic d k = d k :=
  fixEnum_frame _ _ _ d h

lemma fixContentType_frame (d : Dict) {k : String} (h : k ≠ "content_type") :
    fixContentType d k = d k :=
  fixEnum_frame _ _ _ d h

lemma fixAction_frame (d : Dict) {k : String} (h : k ≠ "action_recommendation") :
    fixAction d k = d k :=
  fixEnum_frame _ _ _ d h

lemma fixPrimaryTopic_post (d : Dict) : topicOk (fixPrimaryTopic d) :=
  fixEnum_post _ _ _ d (by simp [VALID_TOPICS])

lemma fixContentType_post (d : Dict) : ctypeOk (fixContentType d) :=
  fixEnum_post _ _ _ d (by simp [VALID_CONTENT_TYPES])

lemma fixAction_post (d : Dict) : actionOk (fixAction d) :=
  fixEnum_post _ _ _ d (by simp [VALID_ACTIONS])

lemma fixSecondaryTopics_frame {d d' : Dict} (h : fixSecondaryTopics d = some d')
    {k : String} (hk : k ≠ "secondary_topics") : d' k = d k := by
  unfold fixSecondaryTopics at h
  split at h
  · exact absurd h (by simp)
  · injection h with h'
    rw [← h']
    exact dset_ne d _ hk

lemma fixSecondaryTopics_some {d : Dict}
    (h : (pyIterVals (getOrDefault d "secondary_topics" (.jarr []))).isSome = true) :
    ∃ d', fixSecondaryTopics d = some d' := by
  unfold fixSecondaryTopics
  cases hit : pyIterVals (getOrDefault d "secondary_topics" (.jarr [])) with
  | none => rw [hit] at h; simp at h
  | some xs => exact ⟨_, rfl⟩

lemma fixQuotes_frame {d d' : Dict} (h : fixQuotes d = some d')
    {k : String} (hk : k ≠ "key_quotes") : d' k = d k := by
  unfold fixQuotes at h
  split at h
  · exact absurd h (by simp)
  · injection h with h'
    rw [← h']
    exact dset_ne d _ hk

lemma fixQuotes_some {d : Dict}
    (h : (pyIterVals (getOrDefault d "key_quotes" (.jarr []))).isSome = true) :
    ∃ d', fixQuotes d = some d' := by
  unfold fixQuotes
  cases hit : pyIterVals (getOrDefault d "key_quotes" (.jarr [])) with
  | none => rw [hit] at h; simp at h
  | some qs => exact ⟨_, rfl⟩

lemma coerceTypeScores_frame (d : Dict) {k : String}
    (h1 : k ≠ "severity_score") (h2 : k ≠ "amplification_score") :
    coerceTypeScores d k = d k := by
  cases hp : d "content_type" with
  | none =>
    simp only [coerceTypeScores, hp]
    exact dset2_ne d _ _ h1 h2
  | some v =>
    cases v with
    | jstr ct =>
      simp only [coerceTypeScores, hp]
      split_ifs
      · exact dset2_ne d _ _ h1 h2
      · exact dset2_ne d _ _ h2 h1
      · exact dset2_ne d _ _ h1 h2
    | jnull =>
      simp only [coerceTypeScores, hp]
      exact dset2_ne d _ _ h1 h2
    | jbool b =>
      simp only [coerceTypeScores, hp]
      exact dset2_ne d _ _ h1 h2
    | jnum q =>
      simp only [coerceTypeScores, hp]
      exact dset2_ne d _ _ h1 h2
    | jarr xs =>
      simp only [coerceTypeScores, hp]
      exact dset2_ne d _ _ h1 h2
    | jobj fs =>
      simp only [coerceTypeScores, hp]
      exact dset2_ne d _ _ h1 h2

lemma coerceTypeScores_ataque (d : Dict)
    (h : d "content_type" = some (.jstr "ATAQUE")) :
    coerceTypeScores d "severity_score"
      = some (.jnum (coerceScore (getOrDefault d "severity_score" (.jnum 0))))
    ∧ coerceTypeScores d "amplification_score" = some .jnull := by
  constructor
  · simp only [coerceTypeScores, h]
    rfl
  · simp only [coerceTypeScores, h]
    rfl

lemma coerceTypeScores_collab (d : Dict)
    (h : d "content_type" = some (.jstr "COLLAB")) :
    coerceTypeScores d "amplification_score"
      = some (.jnum (coerceScore (getOrDefault d "amplification_score" (.jnum 0))))
    ∧ coerceTypeScores d "severity_score" = some .jnull := by
  constructor
  · simp only [coerceTypeScores, h]
    rfl
  · simp only [coerceTypeScores, h]
    rfl

lemma coerceTypeScores_other (d : Dict) {ct : String}
    (h : d "content_type" = some (.jstr ct))
    (h1 : ct ≠ "ATAQUE") (h2 : ct ≠ "COLLAB") :
    coerceTypeScores d "severity_score" = some .jnull
    ∧ coerceTypeScores d "amplification_score" = some .jnull := by
  constructor
  · simp only [coerceTypeScores, h]
    rw [if_neg h1, if_neg h2]
    rfl
  · simp only [coerceTypeScores, h]
    rw [if_neg h1, if_neg h2]
    rfl

lemma coerceConfidence_frame (d : Dict) {k : String} (h : k ≠ "confidence_score") :
    coerceConfidence d k = d k :=
  dset_ne d _ h

lemma coerceConfidence_post (d : Dict) :
    coerceConfidence d "confidence_score"
      = some (.jnum (coerceConf (getOrDefault d "confidence_score" (.jnum (1/2))))) :=
  dset_self d _ _

lemma restampCached_frame (entry : Dict) (username url nowIso : String) {k : String}
    (h1 : k ≠ "username") (h2 : k ≠ "url") (h3 : k ≠ "analyzed_at") :
    restampCached entry username url nowIso k = entry k := by
  cases ha : (dset (dset entry "username" (.jstr username)) "url" (.jstr url)) "analyzed_at" with
  | some v =>
    simp only [restampCached, ha]
    rw [dset_ne _ _ h3]
    exact dset2_ne entry _ _ h1 h2
  | none =>
    simp only [restampCached, ha]
    rw [dset_ne _ _ h3]
    exact dset2_ne entry _ _ h1 h2

lemma stripCtx_frame (rec : Dict) {k : String}
    (h1 : k ≠ "username") (h2 : k ≠ "url") : stripCtx rec k = rec k := by
  unfold stripCtx
  rw [if_neg]
  rintro (h | h)
  · exact h1 h
  · exact h2 h

/-! ### Main lemmas about `normalizeResult` -/

lemma normalizeResult_props {u url now : String} {lat : ℚ} {raw rec : Dict}
    (h : normalizeResult u url now lat raw = some rec) :
    keysComplete rec ∧ topicOk rec ∧ ctypeOk rec ∧ actionOk rec ∧ scoresOk rec := by
  unfold normalizeResult at h
  cases h2 : fixSecondaryTopics (fixPrimaryTopic (setMeta u url now lat raw)) with
  | none => simp only [h2] at h; exact absurd h (by simp)
  | some d2 =>
    simp only [h2] at h
    cases h4 : fixQuotes (coerceConfidence (coerceTypeScores (fixAction (fixContentType d2)))) with
    | none => simp only [h4] at h; exact absurd h (by simp)
    | some d4 =>
      simp only [h4, Option.some.injEq] at h
      subst h
      obtain ⟨t, ht, htv⟩ := fixPrimaryTopic_post (setMeta u url now lat raw)
      have et : d4 "primary_topic" = some (.jstr t) := by
        rw [fixQuotes_frame h4 (by decide), coerceConfidence_frame _ (by decide),
            coerceTypeScores_frame _ (by decide) (by decide),
            fixAction_frame _ (by decide), fixContentType_frame _ (by decide),
            fixSecondaryTopics_frame h2 (by decide)]
        exact ht
      have etr : ensure_keys d4 "primary_topic" = some (.jstr t) := by
        rw [ensure_keys_pres _ _ (by rw [et]; simp)]
        exact et
      obtain ⟨ct, hct, hctv⟩ := fixContentType_post d2
      have hct3 : (fixAction (fixContentType d2)) "content_type" = some (.jstr ct) := by
        rw [fixAction_frame _ (by decide)]
        exact hct
      have ect : d4 "content_type" = some (.jstr ct) := by
        rw [fixQuotes_frame h4 (by decide), coerceConfidence_frame _ (by decide),
            coerceTypeScores_frame _ (by decide) (by decide)]
        exact hct3
      have ectr : ensure_keys d4 "content_type" = some (.jstr ct) := by
        rw [ensure_keys_pres _ _ (by rw [ect]; simp)]
        exact ect
      obtain ⟨a, hac, hav⟩ := fixAction_post (fixContentType d2)
      have ea : d4 "action_recommendation" = some (.jstr a) := by
        rw [fixQuotes_frame h4 (by decide), coerceConfidence_frame _ (by decide),
            coerceTypeScores_frame _ (by decide) (by decide)]
        exact hac
      have ear : ensure_keys d4 "action_recommendation" = some (.jstr a) := by
        rw [ensure_keys_pres _ _ (by rw [ea]; simp)]
        exact ea
      refine ⟨ensure_keys_complete d4, ⟨t, etr, htv⟩, ⟨ct, ectr, hctv⟩, ⟨a, ear, hav⟩, ?_⟩
      refine ⟨ct, ectr, ?_⟩
      by_cases hA : ct = "ATAQUE"
      · subst hA
        obtain ⟨hsev, hamp⟩ := coerceTypeScores_ataque _ hct3
        have es : ensure_keys d4 "severity_score"
            = some (.jnum (coerceScore (getOrDefault (fixAction (fixContentType d2))
                "severity_score" (.jnum 0)))) := by
          have e1 : d4 "severity_score"
              = some (.jnum (coerceScore (getOrDefault (fixAction (fixContentType d2))
                  "severity_score" (.jnum 0)))) := by
            rw [fixQuotes_frame h4 (by decide), coerceConfidence_frame _ (by decide)]
            exact hsev
          rw [ensure_keys_pres _ _ (by rw [e1]; simp)]
          exact e1
        have eam : ensure_keys d4 "amplification_score" = some .jnull := by
          have e1 : d4 "amplification_score" = some .jnull := by
            rw [fixQuotes_frame h4 (by decide), coerceConfidence_frame _ (by decide)]
            exact hamp
          rw [ensure_keys_pres _ _ (by rw [e1]; simp)]
          exact e1
        exact Or.inl ⟨rfl, ⟨_, es⟩, eam⟩
      · by_cases hC : ct = "COLLAB"
        · subst hC
          obtain ⟨hamp, hsev⟩ := coerceTypeScores_collab _ hct3
          have es : ensure_keys d4 "severity_score" = some .jnull := by
            have e1 : d4 "severity_score" = some .jnull := by
              rw [fixQuotes_frame h4 (by decide), coerceConfidence_frame _ (by decide)]
              exact hsev
            rw [ensure_keys_pres _ _ (by rw [e1]; simp)]
            exact e1
          have eam : ensure_keys d4 "amplification_score"
              = some (.jnum (coerceScore (getOrDefault (fixAction (fixContentType d2))
                  "amplification_score" (.jnum 0)))) := by
            have e1 : d4 "amplification_score"
                = some (.jnum (coerceScore (getOrDefault (fixAction (fixContentType d2))
                    "amplification_score" (.jnum 0)))) := by
              rw [fixQuotes_frame h4 (by decide), coerceConfidence_frame _ (by decide)]
              exact hamp
            rw [ensure_keys_pres _ _ (by rw [e1]; simp)]
            exact e1
          exact Or.inr (Or.inl ⟨rfl, ⟨_, eam⟩, es⟩)
        · obtain ⟨hsev, hamp⟩ := coerceTypeScores_other _ hct3 hA hC
          have es : ensure_keys d4 "severity_score" = some .jnull := by
            have e1 : d4 "severity_score" = some .jnull := by
              rw [fixQuotes_frame h4 (by decide), coerceConfidence_frame _ (by decide)]
              exact hsev
            rw [ensure_keys_pres _ _ (by rw [e1]; simp)]
            exact e1
          have eam : ensure_keys d4 "amplification_score" = some .jnull := by
            have e1 : d4 "amplification_score" = some .jnull := by
              rw [fixQuotes_frame h4 (by decide), coerceConfidence_frame _ (by decide)]
              exact hamp
            rw [ensure_keys_pres _ _ (by rw [e1]; simp)]
            exact e1
          exact Or.inr (Or.inr ⟨hA, hC, es, eam⟩)

/-- Keys untouched by metadata stamping, topic validation and
secondary-topic filtering still hold their raw value. -/
lemma pipeline_frame {u url now : String} {lat : ℚ} {raw d2 : Dict}
    (h2 : fixSecondaryTopics (fixPrimaryTopic (setMeta u url now lat raw)) = some d2)
    {k : String} (hu : k ≠ "username") (hl : k ≠ "url") (ha : k ≠ "analyzed_at")
    (hv : k ≠ "classifier_version") (hlat : k ≠ "latency_seconds")
    (hp : k ≠ "primary_topic") (hs : k ≠ "secondary_topics") :
    d2 k = raw k := by
  rw [fixSecondaryTopics_frame h2 hs, fixPrimaryTopic_frame _ hp,
      setMeta_frame u url now lat raw hu hl ha hv hlat]

/-- Whatever the score fields hold, normalization succeeds as long as the two
list-valued fields are absent, falsy or iterable. -/
lemma normalizeResult_some (u url now : String) (lat : ℚ) (raw : Dict)
    (hs : (pyIterVals (getOrDefault raw "secondary_topics" (.jarr []))).isSome = true)
    (hq : (pyIterVals (getOrDefault raw "key_quotes" (.jarr []))).isSome = true) :
    ∃ rec, normalizeResult u url now lat raw = some rec := by
  have hch1 : (fixPrimaryTopic (setMeta u url now lat raw)) "secondary_topics"
      = raw "secondary_topics" := by
    rw [fixPrimaryTopic_frame _ (by decide),
        setMeta_frame u url now lat raw (by decide) (by decide) (by decide) (by decide)
          (by decide)]
  have hs1 : (pyIterVals (getOrDefault (fixPrimaryTopic (setMeta u url now lat raw))
      "secondary_topics" (.jarr []))).isSome = true := by
    rw [getOrDefault_congr hch1 (.jarr [])]
    exact hs
  obtain ⟨d2, h2⟩ := fixSecondaryTopics_some hs1
  have hch2 : (coerceConfidence (coerceTypeScores (fixAction (fixContentType d2))))
      "key_quotes" = raw "key_quotes" := by
    rw [coerceConfidence_frame _ (by decide),
        coerceTypeScores_frame _ (by decide) (by decide),
        fixAction_frame _ (by decide), fixContentType_frame _ (by decide),
        pipeline_frame h2 (by decide) (by decide) (by decide) (by decide) (by decide)
          (by decide) (by decide)]
  have hq1 : (pyIterVals (getOrDefault (coerceConfidence (coerceTypeScores
      (fixAction (fixContentType d2)))) "key_quotes" (.jarr []))).isSome = true := by
    rw [getOrDefault_congr hch2 (.jarr [])]
    exact hq
  obtain ⟨d4, h4⟩ := fixQuotes_some hq1
  refine ⟨ensure_keys d4, ?_⟩
  unfold normalizeResult
  simp only [h2, h4]

/-- The exact values the normalizer stores in the score fields, in terms of
the raw object. -/
lemma normalizeResult_scores {u url now : String} {lat : ℚ} {raw rec : Dict}
    (h : normalizeResult u url now lat raw = some rec) :
    rec "confidence_score"
      = some (.jnum (coerceConf (getOrDefault raw "confidence_score" (.jnum (1/2)))))
    ∧ (rec "content_type" = some (.jstr "ATAQUE") →
        rec "severity_score"
          = some (.jnum (coerceScore (getOrDefault raw "severity_score" (.jnum 0)))))
    ∧ (rec "content_type" = some (.jstr "COLLAB") →
        rec "amplification_score"
          = some (.jnum (coerceScore (getOrDefault raw "amplification_score" (.jnum 0))))) := by
  unfold normalizeResult at h
  cases h2 : fixSecondaryTopics (fixPrimaryTopic (setMeta u url now lat raw)) with
  | none => simp only [h2] at h; exact absurd h (by simp)
  | some d2 =>
    simp only [h2] at h
    cases h4 : fixQuotes (coerceConfidence (coerceTypeScores (fixAction (fixContentType d2)))) with
    | none => simp only [h4] at h; exact absurd h (by simp)
    | some d4 =>
      simp only [h4, Option.some.injEq] at h
      subst h
      have hcraw : (coerceTypeScores (fixAction (fixContentType d2))) "confidence_score"
          = raw "confidence_score" := by
        rw [coerceTypeScores_frame _ (by decide) (by decide), fixAction_frame _ (by decide),
            fixContentType_frame _ (by decide),
            pipeline_frame h2 (by decide) (by decide) (by decide) (by decide) (by decide)
              (by decide) (by decide)]
      have ec : d4 "confidence_score"
          = some (.jnum (coerceConf (getOrDefault raw "confidence_score" (.jnum (1/2))))) := by
        rw [fixQuotes_frame h4 (by decide), coerceConfidence_post,
            getOrDefault_congr hcraw (.jnum (1/2))]
      obtain ⟨ct, hct2, hctv⟩ := fixContentType_post d2
      have hct3 : (fixAction (fixContentType d2)) "content_type" = some (.jstr ct) := by
        rw [fixAction_frame _ (by decide)]
        exact hct2
      have ectr : ensure_keys d4 "content_type" = some (.jstr ct) := by
        have e1 : d4 "content_type" = some (.jstr ct) := by
          rw [fixQuotes_frame h4 (by decide), coerceConfidence_frame _ (by decide),
              coerceTypeScores_frame _ (by decide) (by decide)]
          exact hct3
        rw [ensure_keys_pres _ _ (by rw [e1]; simp)]
        exact e1
      refine ⟨?_, ?_, ?_⟩
      · rw [ensure_keys_pres _ _ (by rw [ec]; simp)]
        exact ec
      · intro hct
        have hcteq : some (JValue.jstr "ATAQUE") = some (JValue.jstr ct) :=
          hct.symm.trans ectr
        injection hcteq with h5
        injection h5 with h6
        subst h6
        obtain ⟨hsev, -⟩ := coerceTypeScores_ataque _ hct3
        have hsraw : (fixAction (fixContentType d2)) "severity_score"
            = raw "severity_score" := by
          rw [fixAction_frame _ (by decide), fixContentType_frame _ (by decide),
              pipeline_frame h2 (by decide) (by decide) (by decide) (by decide) (by decide)
                (by decide) (by decide)]
        have e1 : d4 "severity_score"
            = some (.jnum (coerceScore (getOrDefault raw "severity_score" (.jnum 0)))) := by
          rw [fixQuotes_frame h4 (by decide), coerceConfidence_frame _ (by decide), hsev,
              getOrDefault_congr hsraw (.jnum 0)]
        rw [ensure_keys_pres _ _ (by rw [e1]; simp)]
        exact e1
      · intro hct
        have hcteq : some (JValue.jstr "COLLAB") = some (JValue.jstr ct) :=
          hct.symm.trans ectr
        injection hcteq with h5
        injection h5 with h6
        subst h6
        obtain ⟨hamp, -⟩ := coerceTypeScores_collab _ hct3
        have hsraw : (fixAction (fixContentType d2)) "amplification_score"
            = raw "amplification_score" := by
          rw [fixAction_frame _ (by decide), fixContentType_frame _ (by decide),
              pipeline_frame h2 (by decide) (by decide) (by decide) (by decide) (by decide)
                (by decide) (by decide)]
        have e1 : d4 "amplification_score"
            = some (.jnum (coerceScore (getOrDefault raw "amplification_score" (.jnum 0)))) := by
          rw [fixQuotes_frame h4 (by decide), coerceConfidence_frame _ (by decide), hamp,
              getOrDefault_congr hsraw (.jnum 0)]
        rw [ensure_keys_pres _ _ (by rw [e1]; simp)]
        exact e1

/-! ### Facts about the model invoker -/

lemma isAttempt_attemptEv (b : Bool) : isAttempt (.attemptEv b) = true := rfl

lemma isAttempt_sleepEv (d : ℚ) : isAttempt (.sleepEv d) = false := rfl

lemma loop_success (oracle : ℕ → Bool → AttemptOutcome) (f attempt : ℕ) (useJson : Bool)
    (lat : ℚ) (stats : ApiStats) (trace : List Ev) {txt : String} {e : ℚ} {tk : ℕ}
    (h : oracle attempt useJson = .success txt e tk) :
    call_openai_loop oracle (f+1) attempt useJson lat stats trace
      = ⟨some (pyStrip txt), pyRound 2 e, tk, record_api_call stats (pyRound 2 e),
         trace ++ [.attemptEv useJson]⟩ := by
  simp only [call_openai_loop, h]

lemma loop_auth (oracle : ℕ → Bool → AttemptOutcome) (f attempt : ℕ) (useJson : Bool)
    (lat : ℚ) (stats : ApiStats) (trace : List Ev) {t m : String} {e : ℚ}
    (h : oracle attempt useJson = .failure t m e) (ha : isAuthErr t m = true) :
    call_openai_loop oracle (f+1) attempt useJson lat stats trace
      = ⟨none, pyRound 2 (lat + e), 0, stats, trace ++ [.attemptEv useJson]⟩ := by
  simp only [call_openai_loop, h, ha, if_true]

lemma loop_downgrade (oracle : ℕ → Bool → AttemptOutcome) (f attempt : ℕ) (useJson : Bool)
    (lat : ℚ) (stats : ApiStats) (trace : List Ev) {t m : String} {e : ℚ}
    (h : oracle attempt useJson = .failure t m e) (ha : isAuthErr t m = false)
    (hb : (isBadReqErr t m && strHas m "response_format") = true) :
    call_openai_loop oracle (f+1) attempt useJson lat stats trace
      = call_openai_loop oracle f (attempt+1) false (lat+e) stats
          (trace ++ [.attemptEv useJson]) := by
  simp only [call_openai_loop, h, ha, hb, if_true, Bool.false_eq_true, if_false]

lemma loop_fail_sleep (oracle : ℕ → Bool → AttemptOutcome) (f attempt : ℕ) (useJson : Bool)
    (lat : ℚ) (stats : ApiStats) (trace : List Ev) {t m : String} {e : ℚ}
    (h : oracle attempt useJson = .failure t m e) (hg : genericFail t m)
    (hlt : attempt < MAX_RETRIES - 1) :
    call_openai_loop oracle (f+1) attempt useJson lat stats trace
      = call_openai_loop oracle f (attempt+1) useJson (lat+e) stats
          (trace ++ [.attemptEv useJson, .sleepEv (BACKOFF_SECONDS.getD attempt 0)]) := by
  simp only [call_openai_loop, h, hg.1, hg.2, Bool.false_eq_true, if_false, if_pos hlt]

lemma loop_fail_last (oracle : ℕ → Bool → AttemptOutcome) (f attempt : ℕ) (useJson : Bool)
    (lat : ℚ) (stats : ApiStats) (trace : List Ev) {t m : String} {e : ℚ}
    (h : oracle attempt useJson = .failure t m e) (hg : genericFail t m)
    (hge : ¬ attempt < MAX_RETRIES - 1) :
    call_openai_loop oracle (f+1) attempt useJson lat stats trace
      = ⟨none, pyRound 2 (lat + e), 0, stats, trace ++ [.attemptEv useJson]⟩ := by
  simp only [call_openai_loop, h, hg.1, hg.2, Bool.false_eq_true, if_false, if_neg hge]

lemma loop_attempts_le (oracle : ℕ → Bool → AttemptOutcome) :
    ∀ (f attempt : ℕ) (useJson : Bool) (lat : ℚ) (stats : ApiStats) (trace : List Ev),
    ((call_openai_loop oracle f attempt useJson lat stats trace).trace.filter isAttempt).length
      ≤ (trace.filter isAttempt).length + f := by
  intro f
  induction f with
  | zero =>
    intro attempt useJson lat stats trace
    simp [call_openai_loop]
  | succ f ih =>
    intro attempt useJson lat stats trace
    have hlen1 : ∀ b : Bool, ((trace ++ [Ev.attemptEv b]).filter isAttempt).length
        = (trace.filter isAttempt).length + 1 := by
      intro b
      simp [List.filter_append, isAttempt_attemptEv]
    have hlen2 : ∀ (b : Bool) (q : ℚ),
        ((trace ++ [Ev.attemptEv b, Ev.sleepEv q]).filter isAttempt).length
          = (trace.filter isAttempt).length + 1 := by
      intro b q
      simp [List.filter_append, isAttempt_attemptEv, isAttempt_sleepEv]
    cases ho : oracle attempt useJson with
    | success txt e tk =>
      rw [loop_success oracle f attempt useJson lat stats trace ho]
      show ((trace ++ [Ev.attemptEv useJson]).filter isAttempt).length
        ≤ (trace.filter isAttempt).length + (f+1)
      rw [hlen1]
      omega
    | failure t m e =>
      by_cases ha : isAuthErr t m = true
      · rw [loop_auth oracle f attempt useJson lat stats trace ho ha]
        show ((trace ++ [Ev.attemptEv useJson]).filter isAttempt).length
          ≤ (trace.filter isAttempt).length + (f+1)
        rw [hlen1]
        omega
      · have ha' : isAuthErr t m = false := by simpa using ha
        by_cases hb : (isBadReqErr t m && strHas m "response_format") = true
        · rw [loop_downgrade oracle f attempt useJson lat stats trace ho ha' hb]
          have h1 := ih (attempt+1) false (lat+e) stats (trace ++ [.attemptEv useJson])
          rw [hlen1] at h1
          omega
        · have hb' : (isBadReqErr t m && strHas m "response_format") = false := by
            simpa using hb
          by_cases hlt : attempt < MAX_RETRIES - 1
          · rw [loop_fail_sleep oracle f attempt useJson lat stats trace ho ⟨ha', hb'⟩ hlt]
            have h1 := ih (attempt+1) useJson (lat+e) stats
              (trace ++ [.attemptEv useJson, .sleepEv (BACKOFF_SECONDS.getD attempt 0)])
            rw [hlen2] at h1
            omega
          · rw [loop_fail_last oracle f attempt useJson lat stats trace ho ⟨ha', hb'⟩ hlt]
            show ((trace ++ [Ev.attemptEv useJson]).filter isAttempt).length
              ≤ (trace.filter isAttempt).length + (f+1)
            rw [hlen1]
            omega

lemma loop_sleep_mem (oracle : ℕ → Bool → AttemptOutcome) :
    ∀ (f attempt : ℕ) (useJson : Bool) (lat : ℚ) (stats : ApiStats) (trace : List Ev)
      (d : ℚ),
    Ev.sleepEv d ∈ (call_openai_loop oracle f attempt useJson lat stats trace).trace →
    Ev.sleepEv d ∈ trace ∨ d ∈ BACKOFF_SECONDS := by
  intro f
  induction f with
  | zero =>
    intro attempt useJson lat stats trace d h
    exact Or.inl h
  | succ f ih =>
    intro attempt useJson lat stats trace d h
    cases ho : oracle attempt useJson with
    | success txt e tk =>
      rw [loop_success oracle f attempt useJson lat stats trace ho] at h
      simp only [List.mem_append, List.mem_singleton] at h
      rcases h with h | h
      · exact Or.inl h
      · exact absurd h (by simp)
    | failure t m e =>
      by_cases ha : isAuthErr t m = true
      · rw [loop_auth oracle f attempt useJson lat stats trace ho ha] at h
        simp only [List.mem_append, List.mem_singleton] at h
        rcases h with h | h
        · exact Or.inl h
        · exact absurd h (by simp)
      · have ha' : isAuthErr t m = false := by simpa using ha
        by_cases hb : (isBadReqErr t m && strHas m "response_format") = true
        · rw [loop_downgrade oracle f attempt useJson lat stats trace ho ha' hb] at h
          rcases ih (attempt+1) false (lat+e) stats (trace ++ [.attemptEv useJson]) d h with
            h1 | h1
          · simp only [List.mem_append, List.mem_singleton] at h1
            rcases h1 with h1 | h1
            · exact Or.inl h1
            · exact absurd h1 (by simp)
          · exact Or.inr h1
        · have hb' : (isBadReqErr t m && strHas m "response_format") = false := by
            simpa using hb
          by_cases hlt : attempt < MAX_RETRIES - 1
          · rw [loop_fail_sleep oracle f attempt useJson lat stats trace ho ⟨ha', hb'⟩ hlt] at h
            rcases ih (attempt+1) useJson (lat+e) stats
              (trace ++ [.attemptEv useJson, .sleepEv (BACKOFF_SECONDS.getD attempt 0)]) d h with
              h1 | h1
            · simp only [List.mem_append, List.mem_cons, List.mem_singleton,
                Ev.sleepEv.injEq] at h1
              rcases h1 with h1 | h1 | h1
              · exact Or.inl h1
              · exact absurd h1 (by simp)
              · right
                rw [show d = BACKOFF_SECONDS.getD attempt 0 from h1.resolve_right (by simp)]
                have h2 : attempt < 2 := by simpa [MAX_RETRIES] using hlt
                interval_cases attempt
                · simp [BACKOFF_SECONDS]
                · simp [BACKOFF_SECONDS]
            · exact Or.inr h1
          · rw [loop_fail_last oracle f attempt useJson lat stats trace ho ⟨ha', hb'⟩ hlt] at h
            simp only [List.mem_append, List.mem_singleton] at h
            rcases h with h | h
            · exact Or.inl h
            · exact absurd h (by simp)

lemma loop_stats_none (oracle : ℕ → Bool → AttemptOutcome) :
    ∀ (f attempt : ℕ) (useJson : Bool) (lat : ℚ) (stats : ApiStats) (trace : List Ev),
    (call_openai_loop oracle f attempt useJson lat stats trace).text = none →
    (call_openai_loop oracle f attempt useJson lat stats trace).stats = stats := by
  intro f
  induction f with
  | zero =>
    intro attempt useJson lat stats trace _
    rfl
  | succ f ih =>
    intro attempt useJson lat stats trace h
    cases ho : oracle attempt useJson with
    | success txt e tk =>
      rw [loop_success oracle f attempt useJson lat stats trace ho] at h
      exact absurd h (by simp)
    | failure t m e =>
      by_cases ha : isAuthErr t m = true
      · rw [loop_auth oracle f attempt useJson lat stats trace ho ha]
      · have ha' : isAuthErr t m = false := by simpa using ha
        by_cases hb : (isBadReqErr t m && strHas m "response_format") = true
        · rw [loop_downgrade oracle f attempt useJson lat stats trace ho ha' hb] at h ⊢
          exact ih (attempt+1) false (lat+e) stats (trace ++ [.attemptEv useJson]) h
        · have hb' : (isBadReqErr t m && strHas m "response_format") = false := by
            simpa using hb
          by_cases hlt : attempt < MAX_RETRIES - 1
          · rw [loop_fail_sleep oracle f attempt useJson lat stats trace ho ⟨ha', hb'⟩ hlt] at h ⊢
            exact ih (attempt+1) useJson (lat+e) stats _ h
          · rw [loop_fail_last oracle f attempt useJson lat stats trace ho ⟨ha', hb'⟩ hlt]

lemma loop_false_stays (oracle : ℕ → Bool → AttemptOutcome) :
    ∀ (f attempt : ℕ) (lat : ℚ) (stats : ApiStats) (trace : List Ev),
    Ev.attemptEv true ∈ (call_openai_loop oracle f attempt false lat stats trace).trace →
    Ev.attemptEv true ∈ trace := by
  intro f
  induction f with
  | zero =>
    intro attempt lat stats trace h
    exact h
  | succ f ih =>
    intro attempt lat stats trace h
    cases ho : oracle attempt false with
    | success txt e tk =>
      rw [loop_success oracle f attempt false lat stats trace ho] at h
      simp only [List.mem_append, List.mem_singleton] at h
      rcases h with h | h
      · exact h
      · exact absurd h (by simp)
    | failure t m e =>
      by_cases ha : isAuthErr t m = true
      · rw [loop_auth oracle f attempt false lat stats trace ho ha] at h
        simp only [List.mem_append, List.mem_singleton] at h
        rcases h with h | h
        · exact h
        · exact absurd h (by simp)
      · have ha' : isAuthErr t m = false := by simpa using ha
        by_cases hb : (isBadReqErr t m && strHas m "response_format") = true
        · rw [loop_downgrade oracle f attempt false lat stats trace ho ha' hb] at h
          have h1 := ih (attempt+1) (lat+e) stats (trace ++ [.attemptEv false]) h
          simp only [List.mem_append, List.mem_singleton] at h1
          rcases h1 with h1 | h1
          · exact h1
          · exact absurd h1 (by simp)
        · have hb' : (isBadReqErr t m && strHas m "response_format") = false := by
            simpa using hb
          by_cases hlt : attempt < MAX_RETRIES - 1
          · rw [loop_fail_sleep oracle f attempt false lat stats trace ho ⟨ha', hb'⟩ hlt] at h
            have h1 := ih (attempt+1) (lat+e) stats
              (trace ++ [.attemptEv false, .sleepEv (BACKOFF_SECONDS.getD attempt 0)]) h
            simp only [List.mem_append, List.mem_cons, List.mem_singleton] at h1
            rcases h1 with h1 | h1 | h1
            · exact h1
            · exact absurd h1 (by simp)
            · exact absurd h1 (by simp)
          · rw [loop_fail_last oracle f attempt false lat stats trace ho ⟨ha', hb'⟩ hlt] at h
            simp only [List.mem_append, List.mem_singleton] at h
            rcases h with h | h
            · exact h
            · exact absurd h (by simp)

/-! ### Facts about the extractor -/

lemma dropToBrace_shape : ∀ {cs suffix : List Char},
    dropToBrace cs = some suffix → ∃ rest, suffix = '\x7b' :: rest := by
  intro cs
  induction cs with
  | nil => intro suffix h; simp [dropToBrace] at h
  | cons c rest ih =>
    intro suffix h
    simp only [dropToBrace] at h
    split at h
    · rename_i hc
      injection h with h'
      exact ⟨rest, by rw [← h', hc]⟩
    · exact ih h

lemma braceScan_eq_matchingSpan (parse : String → Option Dict) :
    ∀ (cs acc : List Char) (n : ℕ), 1 ≤ n →
    braceScan parse (n : ℤ) acc cs
      = (matchingSpan n acc cs).bind fun span => parse (String.mk span) := by
  intro cs
  induction cs with
  | nil => intro acc n hn; rfl
  | cons c rest ih =>
    intro acc n hn
    simp only [braceScan, matchingSpan]
    by_cases hb : c = '\x7b'
    · rw [if_pos hb, if_pos hb]
      have hc1 : ((n : ℤ) + 1) = ((n + 1 : ℕ) : ℤ) := by push_cast; ring
      rw [hc1]
      exact ih (acc ++ [c]) (n+1) (by omega)
    · rw [if_neg hb, if_neg hb]
      by_cases hc : c = '\x7d'
      · rw [if_pos hc, if_pos hc]
        by_cases h1 : n = 1
        · subst h1
          rw [if_pos (by norm_num : ((1:ℕ):ℤ) - 1 = 0), if_pos rfl]
          rfl
        · rw [if_neg (by omega : ¬ ((n:ℤ) - 1 = 0)), if_neg h1]
          have hc2 : ((n : ℤ) - 1) = ((n - 1 : ℕ) : ℤ) := by omega
          rw [hc2]
          exact ih (acc ++ [c]) (n-1) (by omega)
      · rw [if_neg hc, if_neg hc]
        exact ih (acc ++ [c]) n hn

lemma braceScan_start (parse : String → Option Dict) (rest : List Char) :
    braceScan parse 0 [] ('\x7b' :: rest)
      = (matchingSpan 0 [] ('\x7b' :: rest)).bind fun span => parse (String.mk span) :=
  braceScan_eq_matchingSpan parse rest ['\x7b'] 1 le_rfl

/-! ### Facts about the orchestrator -/

lemma classify_content_absent_key (hashFn : String → String) (parse : String → Option Dict)
    (oracle : String → ℕ → Bool → AttemptOutcome) (cache : String → Option Dict)
    (stats : ApiStats) (nowIso username transcript url : String)
    {apiKey : Option String} (h : apiKey.getD "" = "") :
    classify_content hashFn parse oracle apiKey cache stats nowIso username transcript url
      = ⟨.absent, cache, false, stats, []⟩ := by
  unfold classify_content
  rw [if_pos h]

lemma classify_content_empty (hashFn : String → String) (parse : String → Option Dict)
    (oracle : String → ℕ → Bool → AttemptOutcome) (apiKey : Option String)
    (cache : String → Option Dict) (stats : ApiStats) (nowIso username transcript url : String)
    (h : pyStrip transcript = "") :
    classify_content hashFn parse oracle apiKey cache stats nowIso username transcript url
      = ⟨.absent, cache, false, stats, []⟩ := by
  unfold classify_content
  by_cases hk : apiKey.getD "" = ""
  · rw [if_pos hk]
  · rw [if_neg hk, if_pos h]

lemma classify_content_hit (hashFn : String → String) (parse : String → Option Dict)
    (oracle : String → ℕ → Bool → AttemptOutcome) (apiKey : Option String)
    (cache : String → Option Dict) (stats : ApiStats) (nowIso username transcript url : String)
    (hk : ¬ apiKey.getD "" = "") (ht : ¬ pyStrip transcript = "")
    {entry : Dict} (hc : cache (hashFn (pyStrip transcript)) = some entry) :
    classify_content hashFn parse oracle apiKey cache stats nowIso username transcript url
      = ⟨.record (ensure_keys (restampCached entry username url nowIso)),
         cache, false, stats, []⟩ := by
  unfold classify_content
  rw [if_neg hk, if_neg ht]
  simp only [hc]

lemma classify_content_miss (hashFn : String → String) (parse : String → Option Dict)
    (oracle : String → ℕ → Bool → AttemptOutcome) (apiKey : Option String)
    (cache : String → Option Dict) (stats : ApiStats) (nowIso username transcript url : String)
    (hk : ¬ apiKey.getD "" = "") (ht : ¬ pyStrip transcript = "")
    (hc : cache (hashFn (pyStrip transcript)) = none) :
    ∃ msg, classify_content hashFn parse oracle apiKey cache stats nowIso username transcript url
      = classifyFresh parse (call_openai (oracle msg) stats) cache
          (hashFn (pyStrip transcript)) username url nowIso := by
  unfold classify_content
  rw [if_neg hk, if_neg ht]
  simp only [hc]
  exact ⟨_, rfl⟩

lemma classifyFresh_record {parse : String → Option Dict} {inv : InvokeOut}
    {cache : String → Option Dict} {t_hash username url nowIso : String} {rec : Dict}
    (h : (classifyFresh parse inv cache t_hash username url nowIso).result = .record rec) :
    ∃ raw r0, inv.text = some raw ∧ extract_json parse raw = some r0
      ∧ normalizeResult username url nowIso inv.latency r0 = some rec := by
  unfold classifyFresh at h
  cases htext : inv.text with
  | none => simp only [htext] at h; cases h
  | some raw =>
    simp only [htext] at h
    cases hex : extract_json parse raw with
    | none => simp only [hex] at h; cases h
    | some r0 =>
      simp only [hex] at h
      cases hn : normalizeResult username url nowIso inv.latency r0 with
      | none => simp only [hn] at h; cases h
      | some rec' =>
        simp only [hn] at h
        have hr : rec' = rec := by
          injection h
        subst hr
        exact ⟨raw, r0, rfl, hex, hn⟩

lemma classifyFresh_cache_char (parse : String → Option Dict) (inv : InvokeOut)
    (cache : String → Option Dict) (t_hash username url nowIso : String) :
    (classifyFresh parse inv cache t_hash username url nowIso).cache = cache
    ∨ ∃ rec, (classifyFresh parse inv cache t_hash username url nowIso).result = .record rec
        ∧ (classifyFresh parse inv cache t_hash username url nowIso).cache
            = fun hh => if hh = t_hash then some (stripCtx rec) else cache hh := by
  unfold classifyFresh
  cases htext : inv.text with
  | none => left; rfl
  | some raw =>
    dsimp only
    cases hex : extract_json parse raw with
    | none => left; rfl
    | some r0 =>
      dsimp only
      cases hn : normalizeResult username url nowIso inv.latency r0 with
      | none => left; rfl
      | some rec =>
        right
        exact ⟨rec, rfl, rfl⟩

lemma cacheHit_pres (entry : Dict) (username url nowIso : String) (k : String)
    (h1 : k ≠ "username") (h2 : k ≠ "url") (h3 : k ≠ "analyzed_at")
    {v : JValue} (he : entry k = some v) :
    ensure_keys (restampCached entry username url nowIso) k = some v := by
  have hrs : restampCached entry username url nowIso k = some v := by
    rw [restampCached_frame entry username url nowIso h1 h2 h3]
    exact he
  rw [ensure_keys_pres _ _ (by rw [hrs]; simp)]
  exact hrs

lemma cacheHit_fill (entry : Dict) (username url nowIso : String) (k : String)
    (h1 : k ≠ "username") (h2 : k ≠ "url") (h3 : k ≠ "analyzed_at")
    (he : entry k = none) :
    ensure_keys (restampCached entry username url nowIso) k
      = firstVal REQUIRED_KEYS k := by
  apply ensure_keys_fill
  rw [restampCached_frame entry username url nowIso h1 h2 h3]
  exact he

/-- A record returned by the cache-hit path satisfies the enumeration
invariants whenever the stored entry does. -/
lemma cacheHit_enumOk {entry : Dict} (username url nowIso : String)
    (hok : cacheEntryOk entry) :
    topicOk (ensure_keys (restampCached entry username url nowIso))
    ∧ ctypeOk (ensure_keys (restampCached entry username url nowIso))
    ∧ actionOk (ensure_keys (restampCached entry username url nowIso)) := by
  obtain ⟨hT, hC, hA⟩ := hok
  refine ⟨?_, ?_, ?_⟩
  · cases he : entry "primary_topic" with
    | some v =>
      obtain ⟨t, hvt, htv⟩ := hT v he
      refine ⟨t, ?_, htv⟩
      rw [cacheHit_pres entry username url nowIso _ (by decide) (by decide) (by decide) he,
        hvt]
    | none =>
      refine ⟨"Outros/Não Político", ?_, by simp [VALID_TOPICS]⟩
      rw [cacheHit_fill entry username url nowIso _ (by decide) (by decide) (by decide) he]
      rfl
  · cases he : entry "content_type" with
    | some v =>
      obtain ⟨ct, hvt, hcv⟩ := hC v he
      refine ⟨ct, ?_, hcv⟩
      rw [cacheHit_pres entry username url nowIso _ (by decide) (by decide) (by decide) he,
        hvt]
    | none =>
      refine ⟨"NEUTRO", ?_, by simp [VALID_CONTENT_TYPES]⟩
      rw [cacheHit_fill entry username url nowIso _ (by decide) (by decide) (by decide) he]
      rfl
  · cases he : entry "action_recommendation" with
    | some v =>
      obtain ⟨a, hvt, hav⟩ := hA v he
      refine ⟨a, ?_, hav⟩
      rw [cacheHit_pres entry username url nowIso _ (by decide) (by decide) (by decide) he,
        hvt]
    | none =>
      refine ⟨"ARQUIVAR", ?_, by simp [VALID_ACTIONS]⟩
      rw [cacheHit_fill entry username url nowIso _ (by decide) (by decide) (by decide) he]
      rfl

/-- A record returned by the cache-hit path keeps the mutual-exclusivity
shape of the stored entry. -/
lemma cacheHit_scoresOk {entry : Dict} (username url nowIso : String)
    (hok : scoresOk entry) :
    scoresOk (ensure_keys (restampCached entry username url nowIso)) := by
  obtain ⟨ct, hct, hdisj⟩ := hok
  refine ⟨ct, cacheHit_pres entry username url nowIso _ (by decide) (by decide) (by decide)
    hct, ?_⟩
  rcases hdisj with ⟨hA, ⟨q, hs⟩, ha⟩ | ⟨hC, ⟨q, ha⟩, hs⟩ | ⟨hA, hC, hs, ha⟩
  · exact Or.inl ⟨hA,
      ⟨q, cacheHit_pres entry username url nowIso _ (by decide) (by decide) (by decide) hs⟩,
      cacheHit_pres entry username url nowIso _ (by decide) (by decide) (by decide) ha⟩
  · exact Or.inr (Or.inl ⟨hC,
      ⟨q, cacheHit_pres entry username url nowIso _ (by decide) (by decide) (by decide) ha⟩,
      cacheHit_pres entry username url nowIso _ (by decide) (by decide) (by decide) hs⟩)
  · exact Or.inr (Or.inr ⟨hA, hC,
      cacheHit_pres entry username url nowIso _ (by decide) (by decide) (by decide) hs,
      cacheHit_pres entry username url nowIso _ (by decide) (by decide) (by decide) ha⟩)

/-- Dropping `username`/`url` for the cache entry does not affect the
enumerated fields. -/
lemma stripCtx_enumOk {rec : Dict} (h1 : topicOk rec) (h2 : ctypeOk rec)
    (h3 : actionOk rec) : cacheEntryOk (stripCtx rec) := by
  obtain ⟨t, ht, htv⟩ := h1
  obtain ⟨ct, hct, hcv⟩ := h2
  obtain ⟨a, ha, hav⟩ := h3
  refine ⟨?_, ?_, ?_⟩
  · intro v hv
    rw [stripCtx_frame rec (by decide) (by decide), ht] at hv
    injection hv with hv'
    exact ⟨t, hv'.symm, htv⟩
  · intro v hv
    rw [stripCtx_frame rec (by decide) (by decide), hct] at hv
    injection hv with hv'
    exact ⟨ct, hv'.symm, hcv⟩
  · intro v hv
    rw [stripCtx_frame rec (by decide) (by decide), ha] at hv
    injection hv with hv'
    exact ⟨a, hv'.symm, hav⟩

/-- Dropping `username`/`url` keeps the mutual-exclusivity shape. -/
lemma stripCtx_scoresOk {rec : Dict} (h : scoresOk rec) : scoresOk (stripCtx rec) := by
  obtain ⟨ct, hct, hdisj⟩ := h
  refine ⟨ct, ?_, ?_⟩
  · rw [stripCtx_frame rec (by decide) (by decide)]
    exact hct
  · rcases hdisj with ⟨hA, ⟨q, hs⟩, ha⟩ | ⟨hC, ⟨q, ha⟩, hs⟩ | ⟨hA, hC, hs, ha⟩
    · exact Or.inl ⟨hA, ⟨q, by rw [stripCtx_frame rec (by decide) (by decide)]; exact hs⟩,
        by rw [stripCtx_frame rec (by decide) (by decide)]; exact ha⟩
    · exact Or.inr (Or.inl ⟨hC,
        ⟨q, by rw [stripCtx_frame rec (by decide) (by decide)]; exact ha⟩,
        by rw [stripCtx_frame rec (by decide) (by decide)]; exact hs⟩)
    · exact Or.inr (Or.inr ⟨hA, hC,
        by rw [stripCtx_frame rec (by decide) (by decide)]; exact hs,
        by rw [stripCtx_frame rec (by decide) (by decide)]; exact ha⟩)

lemma getOrDefault_none {d : Dict} {k : String} (h : d k = none) (dflt : JValue) :
    getOrDefault d k dflt = dflt := by
  unfold getOrDefault
  rw [h]

lemma getOrDefault_falsy {d : Dict} {k : String} {v : JValue} (h : d k = some v)
    (hv : truthy v = false) (dflt : JValue) : getOrDefault d k dflt = dflt := by
  unfold getOrDefault
  rw [h]
  simp [hv]

lemma getOrDefault_truthy {d : Dict} {k : String} {v : JValue} (h : d k = some v)
    (hv : truthy v = true) (dflt : JValue) : getOrDefault d k dflt = v := by
  unfold getOrDefault
  rw [h]
  simp [hv]

/-! ### Concrete instances used by the witnesses and counterexamples -/

/-- Unwrap an optional dict (empty dict when absent). -/
def someDict : Option Dict → Dict
  | some d => d
  | none => fun _ => none

def hashW : String → String := fun _ => "HASH"

def parseW : String → Option Dict := fun _ => none

def oracleGenW : String → ℕ → Bool → AttemptOutcome :=
  fun _ _ _ => .failure "TimeoutError" "timed out" 1

/-- A cached entry that is an empty object. -/
def entryW : Dict := fun _ => none

def cacheW : String → Option Dict := fun h => if h = "HASH" then some entryW else none

def recW : Dict := ensure_keys (restampCached entryW "user" "u" "now")

/-- A cached entry as the pipeline writes it for a NEUTRO record. -/
def entryW2 : Dict := fun k =>
  if k = "content_type" then some (.jstr "NEUTRO")
  else if k = "severity_score" then some .jnull
  else if k = "amplification_score" then some .jnull
  else none

def cacheW2 : String → Option Dict := fun h => if h = "HASH" then some entryW2 else none

def recW2 : Dict := ensure_keys (restampCached entryW2 "user" "u" "now")

/-- A raw object with unusable score strings. -/
def rawW3 : Dict := fun k =>
  if k = "content_type" then some (.jstr "ATAQUE")
  else if k = "severity_score" then some (.jstr "not a number")
  else if k = "confidence_score" then some (.jstr "nope")
  else none

/-- An oracle that fails twice with a transient error, then succeeds. -/
def oracleRetryW : ℕ → Bool → AttemptOutcome := fun a _ =>
  if a < 2 then .failure "TimeoutError" "timed out" (1/10)
  else .success "ok" (2/10) 42

def oracleAuthW : ℕ → Bool → AttemptOutcome :=
  fun _ _ => .failure "AuthenticationError" "invalid api key" (1/10)

/-- An oracle that rejects `response_format`, then succeeds without it. -/
def oracleBadReqW : ℕ → Bool → AttemptOutcome := fun _ useJson =>
  if useJson then .failure "BadRequestError" "response_format not supported" (1/10)
  else .success "ok" (2/10) 7

def oracleSuccW : ℕ → Bool → AttemptOutcome := fun _ _ => .success "hello" 1 5

def oracleFailW : ℕ → Bool → AttemptOutcome := fun _ _ => .failure "TimeoutError" "timed out" 1

/-- A raw object whose confidence is the truthy number `-1`. -/
def rawC10 : Dict := fun k => if k = "confidence_score" then some (.jnum (-1)) else none

def recC10 : Dict := someDict (normalizeResult "user" "u" "now" 0 rawC10)

/-- A raw object whose confidence is the falsy number `0`. -/
def rawW10 : Dict := fun k => if k = "confidence_score" then some (.jnum 0) else none

def recW10 : Dict := someDict (normalizeResult "user" "u" "now" 0 rawW10)

/-! ## The claims -/

/-- **C1**: every record returned by `classify_content` — on the cache-hit
path as well as the fresh-classification path — carries every key of the
canonical schema, and its `primary_topic`, `content_type` and
`action_recommendation` are members of their closed enumerations.  The
hypothesis `cacheOk cache` says the on-disk cache holds only entries whose
enumerated fields are valid — exactly what the pipeline writes — and the
second conjunct shows `classify_content` itself preserves that invariant. -/
theorem c1_schema_complete
    (hashFn : String → String) (parse : String → Option Dict)
    (oracle : String → ℕ → Bool → AttemptOutcome) (apiKey : Option String)
    (cache : String → Option Dict) (stats : ApiStats) (nowIso : String)
    (username transcript url : String) (rec : Dict) (hcache : cacheOk cache) :
    ((classify_content hashFn parse oracle apiKey cache stats nowIso username transcript
        url).result = .record rec →
      keysComplete rec ∧ topicOk rec ∧ ctypeOk rec ∧ actionOk rec)
    ∧ cacheOk (classify_content hashFn parse oracle apiKey cache stats nowIso username
        transcript url).cache := by
  by_cases hk : apiKey.getD "" = ""
  · rw [classify_content_absent_key hashFn parse oracle cache stats nowIso username
      transcript url hk]
    refine ⟨fun h => ?_, hcache⟩
    cases h
  · by_cases ht : pyStrip transcript = ""
    · rw [classify_content_empty hashFn parse oracle apiKey cache stats nowIso username
        transcript url ht]
      refine ⟨fun h => ?_, hcache⟩
      cases h
    · cases hc : cache (hashFn (pyStrip transcript)) with
      | some entry =>
        rw [classify_content_hit hashFn parse oracle apiKey cache stats nowIso username
          transcript url hk ht hc]
        constructor
        · intro h
          have h' : CResult.record (ensure_keys (restampCached entry username url nowIso))
              = CResult.record rec := h
          injection h' with h''
          subst h''
          obtain ⟨hT, hC, hA⟩ := cacheHit_enumOk username url nowIso (hcache _ entry hc)
          exact ⟨ensure_keys_complete _, hT, hC, hA⟩
        · exact hcache
      | none =>
        obtain ⟨msg, heq⟩ := classify_content_miss hashFn parse oracle apiKey cache stats
          nowIso username transcript url hk ht hc
        rw [heq]
        constructor
        · intro h
          obtain ⟨raw, r0, -, -, hn⟩ := classifyFresh_record h
          obtain ⟨hK, hT, hC, hA, -⟩ := normalizeResult_props hn
          exact ⟨hK, hT, hC, hA⟩
        · rcases classifyFresh_cache_char parse (call_openai (oracle msg) stats) cache
            (hashFn (pyStrip transcript)) username url nowIso with hch | ⟨rec', hres, hch⟩
          · rw [hch]
            exact hcache
          · rw [hch]
            intro hh d hd
            dsimp only at hd
            by_cases hht : hh = hashFn (pyStrip transcript)
            · rw [if_pos hht] at hd
              injection hd with hd'
              subst hd'
              obtain ⟨raw, r0, -, -, hn⟩ := classifyFresh_record hres
              obtain ⟨-, hT, hC, hA, -⟩ := normalizeResult_props hn
              exact stripCtx_enumOk hT hC hA
            · rw [if_neg hht] at hd
              exact hcache hh d hd

/-- **C2**: every record returned by the pipeline has exactly the score
matching its validated `content_type` non-null — `ATAQUE` keeps a numeric
`severity_score` and nulls `amplification_score`, `COLLAB` the converse,
every other type nulls both.  The cache hypothesis says the stored entries
already have this shape (what the pipeline writes), and the second conjunct
shows the pipeline preserves it. -/
theorem c2_score_exclusivity
    (hashFn : String → String) (parse : String → Option Dict)
    (oracle : String → ℕ → Bool → AttemptOutcome) (apiKey : Option String)
    (cache : String → Option Dict) (stats : ApiStats) (nowIso : String)
    (username transcript url : String) (rec : Dict) (hcache : cacheScoresOk cache) :
    ((classify_content hashFn parse oracle apiKey cache stats nowIso username transcript
        url).result = .record rec → scoresOk rec)
    ∧ cacheScoresOk (classify_content hashFn parse oracle apiKey cache stats nowIso
        username transcript url).cache := by
  by_cases hk : apiKey.getD "" = ""
  · rw [classify_content_absent_key hashFn parse oracle cache stats nowIso username
      transcript url hk]
    refine ⟨fun h => ?_, hcache⟩
    cases h
  · by_cases ht : pyStrip transcript = ""
    · rw [classify_content_empty hashFn parse oracle apiKey cache stats nowIso username
        transcript url ht]
      refine ⟨fun h => ?_, hcache⟩
      cases h
    · cases hc : cache (hashFn (pyStrip transcript)) with
      | some entry =>
        rw [classify_content_hit hashFn parse oracle apiKey cache stats nowIso username
          transcript url hk ht hc]
        constructor
        · intro h
          have h' : CResult.record (ensure_keys (restampCached entry username url nowIso))
              = CResult.record rec := h
          injection h' with h''
          subst h''
          exact cacheHit_scoresOk username url nowIso (hcache _ entry hc)
        · exact hcache
      | none =>
        obtain ⟨msg, heq⟩ := classify_content_miss hashFn parse oracle apiKey cache stats
          nowIso username transcript url hk ht hc
        rw [heq]
        constructor
        · intro h
          obtain ⟨raw, r0, -, -, hn⟩ := classifyFresh_record h
          exact (normalizeResult_props hn).2.2.2.2
        · rcases classifyFresh_cache_char parse (call_openai (oracle msg) stats) cache
            (hashFn (pyStrip transcript)) username url nowIso with hch | ⟨rec', hres, hch⟩
          · rw [hch]
            exact hcache
          · rw [hch]
            intro hh d hd
            dsimp only at hd
            by_cases hht : hh = hashFn (pyStrip transcript)
            · rw [if_pos hht] at hd
              injection hd with hd'
              subst hd'
              obtain ⟨raw, r0, -, -, hn⟩ := classifyFresh_record hres
              exact stripCtx_scoresOk (normalizeResult_props hn).2.2.2.2
            · rw [if_neg hht] at hd
              exact hcache hh d hd

/-- **C9**: when the credential is unset (or empty, which Python's `not`
treats identically) or the transcript is empty/whitespace-only, the
orchestrator returns absent having made no API attempt, slept no backoff,
and left the cache untouched. -/
theorem c9_fail_fast
    (hashFn : String → String) (parse : String → Option Dict)
    (oracle : String → ℕ → Bool → AttemptOutcome) (apiKey : Option String)
    (cache : String → Option Dict) (stats : ApiStats)
    (nowIso username transcript url : String)
    (h : apiKey = none ∨ apiKey = some "" ∨ pyStrip transcript = "") :
    classify_content hashFn parse oracle apiKey cache stats nowIso username transcript url
      = ⟨.absent, cache, false, stats, []⟩ := by
  rcases h with h | h | h
  · subst h
    exact classify_content_absent_key hashFn parse oracle cache stats nowIso username
      transcript url rfl
  · subst h
    exact classify_content_absent_key hashFn parse oracle cache stats nowIso username
      transcript url rfl
  · exact classify_content_empty hashFn parse oracle apiKey cache stats nowIso username
      transcript url h

/-- **C3**: on any raw object, whatever the score fields hold (absent, null,
non-numeric, out of range), normalization succeeds — it can only raise on a
truthy non-iterable `secondary_topics`/`key_quotes`, fields outside this
claim's scope, excluded by the two iterability hypotheses — and it stores a
`confidence_score` in `[0,1]` on the 1/100 grid (`0.5` on conversion
failure or absence of the raw value) and a type-matching score in `[0,10]`
on the 1/10 grid (`0.0` on conversion failure or absence). -/
theorem c3_score_clamping (u url now : String) (lat : ℚ) (raw : Dict)
    (hs : (pyIterVals (getOrDefault raw "secondary_topics" (.jarr []))).isSome = true)
    (hq : (pyIterVals (getOrDefault raw "key_quotes" (.jarr []))).isSome = true) :
    ∃ rec, normalizeResult u url now lat raw = some rec
      ∧ (∃ c, rec "confidence_score" = some (.jnum c) ∧ 0 ≤ c ∧ c ≤ 1
          ∧ (∃ z : ℤ, c = (z:ℚ) / 100)
          ∧ (pyFloat (getOrDefault raw "confidence_score" (.jnum (1/2))) = none → c = 1/2))
      ∧ (rec "content_type" = some (.jstr "ATAQUE") →
          ∃ s, rec "severity_score" = some (.jnum s) ∧ 0 ≤ s ∧ s ≤ 10
            ∧ (∃ z : ℤ, s = (z:ℚ) / 10)
            ∧ (pyFloat (getOrDefault raw "severity_score" (.jnum 0)) = none → s = 0)
            ∧ (raw "severity_score" = none → s = 0))
      ∧ (rec "content_type" = some (.jstr "COLLAB") →
          ∃ a, rec "amplification_score" = some (.jnum a) ∧ 0 ≤ a ∧ a ≤ 10
            ∧ (∃ z : ℤ, a = (z:ℚ) / 10)
            ∧ (pyFloat (getOrDefault raw "amplification_score" (.jnum 0)) = none → a = 0)
            ∧ (raw "amplification_score" = none → a = 0)) := by
  obtain ⟨rec, hrec⟩ := normalizeResult_some u url now lat raw hs hq
  obtain ⟨hconf, hsev, hamp⟩ := normalizeResult_scores hrec
  refine ⟨rec, hrec, ?_, ?_, ?_⟩
  · exact ⟨_, hconf, (coerceConf_mem _).1, (coerceConf_mem _).2.1, (coerceConf_mem _).2.2,
      fun hfail => coerceConf_fail hfail⟩
  · intro hct
    refine ⟨_, hsev hct, (coerceScore_mem _).1, (coerceScore_mem _).2.1,
      (coerceScore_mem _).2.2, fun hfail => coerceScore_fail hfail, ?_⟩
    intro habs
    rw [getOrDefault_none habs]
    exact coerceScore_zero
  · intro hct
    refine ⟨_, hamp hct, (coerceScore_mem _).1, (coerceScore_mem _).2.1,
      (coerceScore_mem _).2.2, fun hfail => coerceScore_fail hfail, ?_⟩
    intro habs
    rw [getOrDefault_none habs]
    exact coerceScore_zero

/-- **C10** (amended): a falsy raw `confidence_score` — the number 0, null,
false, an empty string/list — as well as an absent one normalizes to `0.5`,
never `0.0`; and a returned `confidence_score` of `0.0` can only come from a
raw value that was truthy and converted to a number at most `1/200` (which
clamps and rounds to 0.00) — e.g. the string `"0"`, or any negative number,
which is what the original claim's "non-falsy representation of zero"
overlooked. -/
theorem c10_falsy_confidence {u url now : String} {lat : ℚ} {raw rec : Dict}
    (h : normalizeResult u url now lat raw = some rec) :
    (∀ v, raw "confidence_score" = some v → truthy v = false →
        rec "confidence_score" = some (.jnum (1/2)))
    ∧ (raw "confidence_score" = none → rec "confidence_score" = some (.jnum (1/2)))
    ∧ (rec "confidence_score" = some (.jnum 0) →
        ∃ v x, raw "confidence_score" = some v ∧ truthy v = true
          ∧ pyFloat v = some x ∧ x ≤ 1/200) := by
  have hconf := (normalizeResult_scores h).1
  refine ⟨?_, ?_, ?_⟩
  · intro v hv htr
    rw [hconf, getOrDefault_falsy hv htr, coerceConf_default]
  · intro hv
    rw [hconf, getOrDefault_none hv, coerceConf_default]
  · intro h0
    rw [hconf] at h0
    injection h0 with h1
    injection h1 with h2
    cases hv : raw "confidence_score" with
    | none =>
      rw [getOrDefault_none hv, coerceConf_default] at h2
      norm_num at h2
    | some v =>
      by_cases htr : truthy v = true
      · rw [getOrDefault_truthy hv htr] at h2
        obtain ⟨x, hx, hxle⟩ := (coerceConf_eq_zero_iff v).mp h2
        exact ⟨v, x, rfl, htr, hx, hxle⟩
      · have htr' : truthy v = false := by simpa using htr
        rw [getOrDefault_falsy hv htr', coerceConf_default] at h2
        norm_num at h2

/-- **C8**: the response extractor equals the spec's three-strategy chain —
de-fence then parse directly; else parse exactly the one balanced span from
the first open brace (a failed parse abandons the strategy); else try each
non-overlapping lazy brace span in order; absent when all fail. -/
theorem c8_extractor_strategies (parse : String → Option Dict) (raw : String) :
    extract_json parse raw = specExtract parse raw := by
  unfold extract_json specExtract
  cases hp : parse (stripFences raw) with
  | some obj => simp [List.findSome?_cons, hp]
  | none =>
    simp only [hp, List.findSome?_cons, id_eq]
    unfold specStrat2 firstBalancedSpan specStrat3
    cases hd : dropToBrace (stripFences raw).toList with
    | none =>
      simp only [hd]
      cases hf : (lazySpans (stripFences raw).toList).findSome?
          (fun span => parse (String.mk span)) with
      | none => simp [hf]
      | some obj => simp [hf]
    | some suffix =>
      obtain ⟨rest, hrest⟩ := dropToBrace_shape hd
      subst hrest
      simp only [hd]
      rw [braceScan_start parse rest]
      cases hm : matchingSpan 0 [] ('\x7b' :: rest) with
      | none =>
        cases hf : (lazySpans (stripFences raw).toList).findSome?
            (fun span => parse (String.mk span)) with
        | none => simp [hm, hf]
        | some obj => simp [hm, hf]
      | some span =>
        cases hps : parse (String.mk span) with
        | some obj => simp [hm, hps]
        | none =>
          cases hf : (lazySpans (stripFences raw).toList).findSome?
              (fun span => parse (String.mk span)) with
          | none => simp [hm, hps, hf]
          | some obj => simp [hm, hps, hf]

/-- **C4**: the invoker makes at most 3 attempts and only ever sleeps
durations from the backoff schedule; two generic transient failures followed
by a success produce exactly the trace attempt, sleep 0.5s, attempt, sleep
1.0s, attempt, and return the 3rd attempt's stripped text with that
attempt's latency only; three failures return absent with the accumulated
elapsed time. -/
theorem c4_retry_backoff :
    (∀ (oracle : ℕ → Bool → AttemptOutcome) (s0 : ApiStats),
      ((call_openai oracle s0).trace.filter isAttempt).length ≤ 3)
    ∧ (∀ (oracle : ℕ → Bool → AttemptOutcome) (s0 : ApiStats) (d : ℚ),
        Ev.sleepEv d ∈ (call_openai oracle s0).trace → d ∈ BACKOFF_SECONDS)
    ∧ (∀ (oracle : ℕ → Bool → AttemptOutcome) (s0 : ApiStats) (t0 m0 : String) (e0 : ℚ)
         (t1 m1 : String) (e1 : ℚ) (txt : String) (e2 : ℚ) (tk : ℕ),
        oracle 0 true = .failure t0 m0 e0 → genericFail t0 m0 →
        oracle 1 true = .failure t1 m1 e1 → genericFail t1 m1 →
        oracle 2 true = .success txt e2 tk →
        call_openai oracle s0
          = ⟨some (pyStrip txt), pyRound 2 e2, tk, record_api_call s0 (pyRound 2 e2),
             [.attemptEv true, .sleepEv (1/2), .attemptEv true, .sleepEv 1,
              .attemptEv true]⟩)
    ∧ (∀ (oracle : ℕ → Bool → AttemptOutcome) (s0 : ApiStats) (t0 m0 : String) (e0 : ℚ)
         (t1 m1 : String) (e1 : ℚ) (t2 m2 : String) (e2 : ℚ),
        oracle 0 true = .failure t0 m0 e0 → genericFail t0 m0 →
        oracle 1 true = .failure t1 m1 e1 → genericFail t1 m1 →
        oracle 2 true = .failure t2 m2 e2 → genericFail t2 m2 →
        (call_openai oracle s0).text = none
        ∧ (call_openai oracle s0).latency = pyRound 2 (e0 + e1 + e2)) := by
  refine ⟨?_, ?_, ?_, ?_⟩
  · intro oracle s0
    have h := loop_attempts_le oracle MAX_RETRIES 0 true 0 s0 []
    simpa [call_openai, MAX_RETRIES] using h
  · intro oracle s0 d hd
    have h := loop_sleep_mem oracle MAX_RETRIES 0 true 0 s0 [] d hd
    rcases h with h | h
    · simp at h
    · exact h
  · intro oracle s0 t0 m0 e0 t1 m1 e1 txt e2 tk h0 hg0 h1 hg1 h2
    show call_openai_loop oracle (2+1) 0 true 0 s0 [] = _
    rw [loop_fail_sleep oracle 2 0 true 0 s0 [] h0 hg0 (by norm_num [MAX_RETRIES])]
    show call_openai_loop oracle (1+1) 1 true (0+e0) s0
      ([] ++ [Ev.attemptEv true, Ev.sleepEv (BACKOFF_SECONDS.getD 0 0)]) = _
    rw [loop_fail_sleep oracle 1 1 true (0+e0) s0
      ([] ++ [Ev.attemptEv true, Ev.sleepEv (BACKOFF_SECONDS.getD 0 0)]) h1 hg1
      (by norm_num [MAX_RETRIES])]
    show call_openai_loop oracle (0+1) 2 true ((0+e0)+e1) s0
      (([] ++ [Ev.attemptEv true, Ev.sleepEv (BACKOFF_SECONDS.getD 0 0)])
        ++ [Ev.attemptEv true, Ev.sleepEv (BACKOFF_SECONDS.getD 1 0)]) = _
    rw [loop_success oracle 0 2 true ((0+e0)+e1) s0
      (([] ++ [Ev.attemptEv true, Ev.sleepEv (BACKOFF_SECONDS.getD 0 0)])
        ++ [Ev.attemptEv true, Ev.sleepEv (BACKOFF_SECONDS.getD 1 0)]) h2]
    rfl
  · intro oracle s0 t0 m0 e0 t1 m1 e1 t2 m2 e2 h0 hg0 h1 hg1 h2 hg2
    have key : call_openai oracle s0
        = ⟨none, pyRound 2 (((0+e0)+e1)+e2), 0, s0,
           [.attemptEv true, .sleepEv (1/2), .attemptEv true, .sleepEv 1,
            .attemptEv true]⟩ := by
      show call_openai_loop oracle (2+1) 0 true 0 s0 [] = _
      rw [loop_fail_sleep oracle 2 0 true 0 s0 [] h0 hg0 (by norm_num [MAX_RETRIES])]
      show call_openai_loop oracle (1+1) 1 true (0+e0) s0
        ([] ++ [Ev.attemptEv true, Ev.sleepEv (BACKOFF_SECONDS.getD 0 0)]) = _
      rw [loop_fail_sleep oracle 1 1 true (0+e0) s0
        ([] ++ [Ev.attemptEv true, Ev.sleepEv (BACKOFF_SECONDS.getD 0 0)]) h1 hg1
        (by norm_num [MAX_RETRIES])]
      show call_openai_loop oracle (0+1) 2 true ((0+e0)+e1) s0
        (([] ++ [Ev.attemptEv true, Ev.sleepEv (BACKOFF_SECONDS.getD 0 0)])
          ++ [Ev.attemptEv true, Ev.sleepEv (BACKOFF_SECONDS.getD 1 0)]) = _
      rw [loop_fail_last oracle 0 2 true ((0+e0)+e1) s0
        (([] ++ [Ev.attemptEv true, Ev.sleepEv (BACKOFF_SECONDS.getD 0 0)])
          ++ [Ev.attemptEv true, Ev.sleepEv (BACKOFF_SECONDS.getD 1 0)]) h2 hg2
        (by norm_num [MAX_RETRIES])]
      rfl
    constructor
    · rw [key]
    · rw [key]
      show pyRound 2 (((0+e0)+e1)+e2) = pyRound 2 (e0+e1+e2)
      rw [zero_add]

/-- **C5**: whenever an attempt fails with an authentication error, the
invoker returns absent from that very attempt: no further attempt, no
backoff sleep, no capability downgrade — stated for every reachable loop
state, and instantiated for a first-attempt failure of a full invocation. -/
theorem c5_auth_abort :
    (∀ (oracle : ℕ → Bool → AttemptOutcome) (f attempt : ℕ) (useJson : Bool)
       (lat : ℚ) (stats : ApiStats) (trace : List Ev) (t m : String) (e : ℚ),
      oracle attempt useJson = .failure t m e → isAuthErr t m = true →
      call_openai_loop oracle (f+1) attempt useJson lat stats trace
        = ⟨none, pyRound 2 (lat + e), 0, stats, trace ++ [.attemptEv useJson]⟩)
    ∧ (∀ (oracle : ℕ → Bool → AttemptOutcome) (s0 : ApiStats) (t m : String) (e : ℚ),
      oracle 0 true = .failure t m e → isAuthErr t m = true →
      call_openai oracle s0 = ⟨none, pyRound 2 (0 + e), 0, s0, [.attemptEv true]⟩) := by
  constructor
  · intro oracle f attempt useJson lat stats trace t m e h ha
    exact loop_auth oracle f attempt useJson lat stats trace h ha
  · intro oracle s0 t m e h ha
    show call_openai_loop oracle (2+1) 0 true 0 s0 [] = _
    rw [loop_auth oracle 2 0 true 0 s0 [] h ha]
    rfl

/-- **C6**: a bad-request failure whose message mentions `response_format`
makes the invoker retry immediately — same loop with one unit of the attempt
budget consumed, the flag dropped, and no sleep event emitted — and once the
flag is dropped no later attempt in the invocation requests the option. -/
theorem c6_format_downgrade :
    (∀ (oracle : ℕ → Bool → AttemptOutcome) (f attempt : ℕ) (useJson : Bool)
       (lat : ℚ) (stats : ApiStats) (trace : List Ev) (t m : String) (e : ℚ),
      oracle attempt useJson = .failure t m e →
      isAuthErr t m = false → (isBadReqErr t m && strHas m "response_format") = true →
      call_openai_loop oracle (f+1) attempt useJson lat stats trace
        = call_openai_loop oracle f (attempt+1) false (lat+e) stats
            (trace ++ [.attemptEv useJson]))
    ∧ (∀ (oracle : ℕ → Bool → AttemptOutcome) (f attempt : ℕ) (lat : ℚ)
         (stats : ApiStats) (trace : List Ev),
        Ev.attemptEv true ∈ (call_openai_loop oracle f attempt false lat stats trace).trace →
        Ev.attemptEv true ∈ trace) := by
  constructor
  · intro oracle f attempt useJson lat stats trace t m e h ha hb
    exact loop_downgrade oracle f attempt useJson lat stats trace h ha hb
  · intro oracle f attempt lat stats trace h
    exact loop_false_stays oracle f attempt lat stats trace h

/-- **C7** (amended): `ApiCallStats` is updated exactly by successful
attempts — a success records that attempt's rounded latency and increments
`total_calls` — while failed attempts never touch the counters, so an
invocation that returns absent leaves the stats unchanged. -/
theorem c7_stats_success_only :
    (∀ (oracle : ℕ → Bool → AttemptOutcome) (f attempt : ℕ) (useJson : Bool)
       (lat : ℚ) (stats : ApiStats) (trace : List Ev) (txt : String) (e : ℚ) (tk : ℕ),
      oracle attempt useJson = .success txt e tk →
      (call_openai_loop oracle (f+1) attempt useJson lat stats trace).stats
        = record_api_call stats (pyRound 2 e))
    ∧ (∀ (oracle : ℕ → Bool → AttemptOutcome) (s0 : ApiStats),
      (call_openai oracle s0).text = none → (call_openai oracle s0).stats = s0) := by
  constructor
  · intro oracle f attempt useJson lat stats trace txt e tk h
    rw [loop_success oracle f attempt useJson lat stats trace h]
  · intro oracle s0 h
    exact loop_stats_none oracle MAX_RETRIES 0 true 0 s0 [] h

/-- **C7** (counterexample to the claim as stated): an invocation whose three
attempts all fail makes 3 attempts yet records nothing into `ApiCallStats` —
the counters are only touched on the success path (line 366), not "on every
attempt, whether the attempt succeeds or fails". -/
theorem c7_counterexample :
    ((call_openai oracleFailW ⟨0, 0⟩).trace.filter isAttempt).length = 3
    ∧ (call_openai oracleFailW ⟨0, 0⟩).stats.total_calls = 0
    ∧ (call_openai oracleFailW ⟨0, 0⟩).stats.total_latency = 0 := by
  refine ⟨rfl, rfl, rfl⟩

/-- **C10** (counterexample to the claim as stated): the raw value `-1` for
`confidence_score` is truthy and is not a representation of zero, yet the
returned record carries `confidence_score = 0.0` — clamping sends every
negative number to `0`, which the claim's "unless the raw value was a
non-falsy representation of zero" overlooks. -/
theorem c10_counterexample :
    normalizeResult "user" "u" "now" 0 rawC10 = some recC10
    ∧ rawC10 "confidence_score" = some (.jnum (-1))
    ∧ truthy (.jnum (-1)) = true
    ∧ pyFloat (.jnum (-1)) = some (-1)
    ∧ ((-1 : ℚ) = 0 → False)
    ∧ recC10 "confidence_score" = some (.jnum 0) := by
  refine ⟨rfl, rfl, rfl, rfl, by norm_num, ?_⟩
  have h : recC10 "confidence_score" = some (.jnum (coerceConf (.jnum (-1)))) := rfl
  have hc : coerceConf (.jnum (-1)) = 0 := by
    show pyRound 2 (max 0 (min 1 (-1))) = 0
    rw [show max (0:ℚ) (min 1 (-1)) = 0 by norm_num]
    exact pyRound_zero 2
  rw [h, hc]

theorem c1_schema_complete_witness :
    cacheOk cacheW
    ∧ ((classify_content hashW parseW oracleGenW (some "k") cacheW ⟨0, 0⟩ "now" "user"
        " hi " "u").result = .record recW →
        keysComplete recW ∧ topicOk recW ∧ ctypeOk recW ∧ actionOk recW)
    ∧ (keysComplete recW ∧ topicOk recW ∧ ctypeOk recW ∧ actionOk recW)
    ∧ cacheOk (classify_content hashW parseW oracleGenW (some "k") cacheW ⟨0, 0⟩ "now"
        "user" " hi " "u").cache := by
  have hcache : cacheOk cacheW := by
    intro h d hd
    unfold cacheW at hd
    split at hd
    · injection hd with hd'
      subst hd'
      refine ⟨fun v hv => ?_, fun v hv => ?_, fun v hv => ?_⟩ <;> simp [entryW] at hv
    · cases hd
  have happ := c1_schema_complete hashW parseW oracleGenW (some "k") cacheW ⟨0, 0⟩ "now"
    "user" " hi " "u" recW hcache
  exact ⟨hcache, happ.1, happ.1 rfl, happ.2⟩

theorem c2_score_exclusivity_witness :
    cacheScoresOk cacheW2
    ∧ ((classify_content hashW parseW oracleGenW (some "k") cacheW2 ⟨0, 0⟩ "now" "user"
        " hi " "u").result = .record recW2 → scoresOk recW2)
    ∧ scoresOk recW2
    ∧ cacheScoresOk (classify_content hashW parseW oracleGenW (some "k") cacheW2 ⟨0, 0⟩
        "now" "user" " hi " "u").cache := by
  have hcache : cacheScoresOk cacheW2 := by
    intro h d hd
    unfold cacheW2 at hd
    split at hd
    · injection hd with hd'
      subst hd'
      exact ⟨"NEUTRO", rfl, Or.inr (Or.inr ⟨by decide, by decide, rfl, rfl⟩)⟩
    · cases hd
  have happ := c2_score_exclusivity hashW parseW oracleGenW (some "k") cacheW2 ⟨0, 0⟩
    "now" "user" " hi " "u" recW2 hcache
  exact ⟨hcache, happ.1, happ.1 rfl, happ.2⟩

theorem c9_fail_fast_witness :
    ((none : Option String) = none ∨ (none : Option String) = some ""
      ∨ pyStrip "t" = "")
    ∧ classify_content hashW parseW oracleGenW none cacheW ⟨0, 0⟩ "now" "user" "t" "u"
        = ⟨.absent, cacheW, false, ⟨0, 0⟩, []⟩ :=
  ⟨Or.inl rfl, c9_fail_fast hashW parseW oracleGenW none cacheW ⟨0, 0⟩ "now" "user" "t"
    "u" (Or.inl rfl)⟩

theorem c3_score_clamping_witness :
    (pyIterVals (getOrDefault rawW3 "secondary_topics" (.jarr []))).isSome = true
    ∧ (pyIterVals (getOrDefault rawW3 "key_quotes" (.jarr []))).isSome = true
    ∧ ∃ rec, normalizeResult "user" "u" "now" 0 rawW3 = some rec
      ∧ (∃ c, rec "confidence_score" = some (.jnum c) ∧ 0 ≤ c ∧ c ≤ 1
          ∧ (∃ z : ℤ, c = (z:ℚ) / 100)
          ∧ (pyFloat (getOrDefault rawW3 "confidence_score" (.jnum (1/2))) = none →
              c = 1/2))
      ∧ (rec "content_type" = some (.jstr "ATAQUE") →
          ∃ s, rec "severity_score" = some (.jnum s) ∧ 0 ≤ s ∧ s ≤ 10
            ∧ (∃ z : ℤ, s = (z:ℚ) / 10)
            ∧ (pyFloat (getOrDefault rawW3 "severity_score" (.jnum 0)) = none → s = 0)
            ∧ (rawW3 "severity_score" = none → s = 0))
      ∧ (rec "content_type" = some (.jstr "COLLAB") →
          ∃ a, rec "amplification_score" = some (.jnum a) ∧ 0 ≤ a ∧ a ≤ 10
            ∧ (∃ z : ℤ, a = (z:ℚ) / 10)
            ∧ (pyFloat (getOrDefault rawW3 "amplification_score" (.jnum 0)) = none →
                a = 0)
            ∧ (rawW3 "amplification_score" = none → a = 0)) :=
  ⟨rfl, rfl, c3_score_clamping "user" "u" "now" 0 rawW3 rfl rfl⟩

theorem c10_falsy_confidence_witness :
    normalizeResult "user" "u" "now" 0 rawW10 = some recW10
    ∧ (∀ v, rawW10 "confidence_score" = some v → truthy v = false →
        recW10 "confidence_score" = some (.jnum (1/2)))
    ∧ (rawW10 "confidence_score" = none → recW10 "confidence_score" = some (.jnum (1/2)))
    ∧ (recW10 "confidence_score" = some (.jnum 0) →
        ∃ v x, rawW10 "confidence_score" = some v ∧ truthy v = true
          ∧ pyFloat v = some x ∧ x ≤ 1/200) := by
  have h : normalizeResult "user" "u" "now" 0 rawW10 = some recW10 := rfl
  have happ := c10_falsy_confidence h
  exact ⟨h, happ.1, happ.2.1, happ.2.2⟩

theorem c4_retry_backoff_witness :
    oracleRetryW 0 true = .failure "TimeoutError" "timed out" (1/10)
    ∧ genericFail "TimeoutError" "timed out"
    ∧ oracleRetryW 1 true = .failure "TimeoutError" "timed out" (1/10)
    ∧ oracleRetryW 2 true = .success "ok" (2/10) 42
    ∧ call_openai oracleRetryW ⟨0, 0⟩
        = ⟨some (pyStrip "ok"), pyRound 2 (2/10), 42,
           record_api_call ⟨0, 0⟩ (pyRound 2 (2/10)),
           [.attemptEv true, .sleepEv (1/2), .attemptEv true, .sleepEv 1,
            .attemptEv true]⟩ := by
  have hg : genericFail "TimeoutError" "timed out" := ⟨rfl, rfl⟩
  refine ⟨rfl, hg, rfl, rfl, ?_⟩
  exact c4_retry_backoff.2.2.1 oracleRetryW ⟨0, 0⟩ "TimeoutError" "timed out" (1/10)
    "TimeoutError" "timed out" (1/10) "ok" (2/10) 42 rfl hg rfl hg rfl

theorem c5_auth_abort_witness :
    oracleAuthW 0 true = .failure "AuthenticationError" "invalid api key" (1/10)
    ∧ isAuthErr "AuthenticationError" "invalid api key" = true
    ∧ call_openai oracleAuthW ⟨0, 0⟩
        = ⟨none, pyRound 2 (0 + 1/10), 0, ⟨0, 0⟩, [.attemptEv true]⟩ := by
  refine ⟨rfl, rfl, ?_⟩
  exact c5_auth_abort.2 oracleAuthW ⟨0, 0⟩ "AuthenticationError" "invalid api key"
    (1/10) rfl rfl

theorem c6_format_downgrade_witness :
    oracleBadReqW 0 true = .failure "BadRequestError" "response_format not supported"
        (1/10)
    ∧ isAuthErr "BadRequestError" "response_format not supported" = false
    ∧ (isBadReqErr "BadRequestError" "response_format not supported"
        && strHas "response_format not supported" "response_format") = true
    ∧ call_openai_loop oracleBadReqW 3 0 true 0 ⟨0, 0⟩ []
        = call_openai_loop oracleBadReqW 2 1 false (0 + 1/10) ⟨0, 0⟩ [.attemptEv true]
    ∧ Ev.attemptEv true ∈ (call_openai_loop oracleBadReqW 0 5 false 0 ⟨0, 0⟩
        [.attemptEv true]).trace
    ∧ Ev.attemptEv true ∈ ([.attemptEv true] : List Ev) := by
  have hm : Ev.attemptEv true ∈ (call_openai_loop oracleBadReqW 0 5 false 0 ⟨0, 0⟩
      [Ev.attemptEv true]).trace := by
    show Ev.attemptEv true ∈ [Ev.attemptEv true]
    simp
  have h1 := c6_format_downgrade.1 oracleBadReqW 2 0 true 0 ⟨0, 0⟩ []
    "BadRequestError" "response_format not supported" (1/10) rfl rfl rfl
  exact ⟨rfl, rfl, rfl, h1, hm,
    c6_format_downgrade.2 oracleBadReqW 0 5 0 ⟨0, 0⟩ [Ev.attemptEv true] hm⟩

theorem c7_stats_success_only_witness :
    oracleSuccW 0 true = .success "hello" 1 5
    ∧ (call_openai_loop oracleSuccW 3 0 true 0 ⟨0, 0⟩ []).stats
        = record_api_call ⟨0, 0⟩ (pyRound 2 1)
    ∧ (call_openai oracleFailW ⟨0, 0⟩).text = none
    ∧ (call_openai oracleFailW ⟨0, 0⟩).stats = ⟨0, 0⟩ := by
  refine ⟨rfl, ?_, rfl, ?_⟩
  · exact c7_stats_success_only.1 oracleSuccW 2 0 true 0 ⟨0, 0⟩ [] "hello" 1 5 rfl
  · exact c7_stats_success_only.2 oracleFailW ⟨0, 0⟩ rfl

end Insta
